import Mathlib

/-!
# Survey submission handler (`netlify/submit-survey.js`)

A shallow embedding of `exports.handler` and of the JavaScript built-ins it
calls, followed by the properties of the handler.

Conventions of the embedding.

* A JavaScript string is a Lean `String` (a sequence of Unicode scalar
  values).  An unpaired surrogate written as a `\u` escape in the request body
  is read as U+FFFD, which is also what the form encoding sends for it.
* `undefined` is `none : Option Json`; a value produced by `JSON.parse` is
  `some v`.
* A thrown exception is the `error` side of `Except JsError`.
* The outside world of one invocation (clock, outcome of `fetch`, and the
  number-to-string conversion of the engine) is the record `World`.
* The calls the handler makes to `JSON.parse`, `console` and `fetch` are
  recorded, in order, in a list of `Call`.
-/

namespace SubmitSurvey

/-! ## JSON values -/

/-- The decimal literal of a JSON number: the value is `± mant * 10 ^ exp`. -/
structure JNum where
  neg : Bool
  mant : Nat
  exp : Int
  deriving DecidableEq, Repr

/-- The Number read from a literal is `+0` or `-0` exactly when the
mathematical value rounds to zero, that is when it is at most `2 ^ (-1075)`
in magnitude (round to nearest, ties to even). -/
def JNum.isZero (n : JNum) : Bool :=
  n.mant == 0 || (decide (n.exp < 0) && decide (n.mant * 2 ^ 1075 ≤ 10 ^ (-n.exp).toNat))

/-- Values returned by `JSON.parse`.  The members of an object are kept in
insertion order, each key once. -/
inductive Json where
  | null
  | bool (b : Bool)
  | num (n : JNum)
  | str (s : String)
  | arr (xs : List Json)
  | obj (kvs : List (String × Json))
  deriving Repr

/-- Exceptions that can be thrown inside the handler. -/
inductive JsError where
  | parseError
  | typeError
  deriving DecidableEq, Repr

/-! ## String built-ins -/

/-- WhiteSpace and LineTerminator code points of ECMAScript: the characters
removed by `String.prototype.trim` and matched by `\s`. -/
def isWhiteSpace (c : Char) : Bool :=
  let n := c.toNat
  n == 0x09 || n == 0x0A || n == 0x0B || n == 0x0C || n == 0x0D || n == 0x20 ||
  n == 0xA0 || n == 0x1680 || (decide (0x2000 ≤ n) && decide (n ≤ 0x200A)) ||
  n == 0x2028 || n == 0x2029 || n == 0x202F || n == 0x205F || n == 0x3000 ||
  n == 0xFEFF

/-- The method `String.prototype.trim`. -/
def jsTrim (s : String) : String :=
  String.mk ((s.data.dropWhile isWhiteSpace).reverse.dropWhile isWhiteSpace).reverse

/-! ## `JSON.parse` -/

/-- UTF-16 code units of a character. -/
def charUnits (c : Char) : List Nat :=
  let n := c.toNat
  if n < 0x10000 then [n]
  else [0xD800 + (n - 0x10000) / 0x400, 0xDC00 + (n - 0x10000) % 0x400]

def isHighSurrogate (u : Nat) : Bool := decide (0xD800 ≤ u) && decide (u ≤ 0xDBFF)

def isLowSurrogate (u : Nat) : Bool := decide (0xDC00 ≤ u) && decide (u ≤ 0xDFFF)

/-- A single code unit as a character; an unpaired surrogate becomes U+FFFD. -/
def unitChar (u : Nat) : Char :=
  if isHighSurrogate u || isLowSurrogate u then Char.ofNat 0xFFFD else Char.ofNat u

/-- Code units to characters, pairing surrogates. -/
def decodeUtf16 : List Nat → List Char
  | [] => []
  | [u] => [unitChar u]
  | hi :: lo :: rest =>
    if isHighSurrogate hi && isLowSurrogate lo then
      Char.ofNat (0x10000 + (hi - 0xD800) * 0x400 + (lo - 0xDC00)) :: decodeUtf16 rest
    else unitChar hi :: decodeUtf16 (lo :: rest)

def isDigit (c : Char) : Bool := decide (0x30 ≤ c.toNat) && decide (c.toNat ≤ 0x39)

def digitsValue (ds : List Char) : Nat :=
  ds.foldl (fun acc d => 10 * acc + (d.toNat - 0x30)) 0

def hexValue (c : Char) : Option Nat :=
  let n := c.toNat
  if 0x30 ≤ n ∧ n ≤ 0x39 then some (n - 0x30)
  else if 0x41 ≤ n ∧ n ≤ 0x46 then some (n - 0x41 + 10)
  else if 0x61 ≤ n ∧ n ≤ 0x66 then some (n - 0x61 + 10)
  else none

/-- The exponent part `[eE][+-]?[0-9]+` of a number literal, or nothing. -/
def parseExponent : List Char → Option Int
  | [] => some 0
  | e :: rest =>
    if e = 'e' ∨ e = 'E' then
      match rest with
      | [] => none
      | s :: ds =>
        if s = '+' then
          (if ds ≠ [] ∧ ds.all isDigit then some (Int.ofNat (digitsValue ds)) else none)
        else if s = '-' then
          (if ds ≠ [] ∧ ds.all isDigit then some (- Int.ofNat (digitsValue ds)) else none)
        else if (s :: ds).all isDigit then some (Int.ofNat (digitsValue (s :: ds)))
        else none
    else none

/-- The fraction part `\.[0-9]+` of a number literal, or nothing; returns the
fraction digits and what follows them. -/
def parseFraction : List Char → Option (List Char × List Char)
  | [] => some ([], [])
  | c :: rest =>
    if c = '.' then
      (if rest.takeWhile isDigit = [] then none
       else some (rest.takeWhile isDigit, rest.dropWhile isDigit))
    else some ([], c :: rest)

/-- The part of a number literal after the optional minus sign:
`(0|[1-9][0-9]*)(\.[0-9]+)?([eE][+-]?[0-9]+)?`. -/
def parseUnsigned (neg : Bool) (cs : List Char) : Option JNum :=
  let intDs := cs.takeWhile isDigit
  if intDs = [] then none
  else if 1 < intDs.length ∧ intDs.head? = some '0' then none
  else
    match parseFraction (cs.dropWhile isDigit) with
    | none => none
    | some (fracDs, rest) =>
      match parseExponent rest with
      | none => none
      | some e => some ⟨neg, digitsValue (intDs ++ fracDs), e - Int.ofNat fracDs.length⟩

/-- A JSON number literal. -/
def parseNumber : List Char → Option JNum
  | [] => none
  | c :: rest => if c = '-' then parseUnsigned true rest else parseUnsigned false (c :: rest)

inductive Token where
  | lbrace
  | rbrace
  | lbrack
  | rbrack
  | colon
  | comma
  | str (s : String)
  | val (j : Json)

inductive LexMode where
  | idle
  | str (units : List Nat)
  | esc (units : List Nat)
  | hex (units : List Nat) (digits : List Nat)
  | atom (cs : List Char)

/-- Characters of number literals and of the literals `true`, `false`, `null`. -/
def isAtomChar (c : Char) : Bool :=
  isDigit c || c == '-' || c == '+' || c == '.' ||
  (decide (0x41 ≤ c.toNat) && decide (c.toNat ≤ 0x5A)) ||
  (decide (0x61 ≤ c.toNat) && decide (c.toNat ≤ 0x7A))

def atomToken (cs : List Char) : Option Token :=
  if cs = "true".data then some (.val (.bool true))
  else if cs = "false".data then some (.val (.bool false))
  else if cs = "null".data then some (.val .null)
  else (parseNumber cs).map (fun n => .val (.num n))

/-- One character read between tokens. -/
def lexIdle (toks : List Token) (c : Char) : Option (LexMode × List Token) :=
  let n := c.toNat
  if n = 0x20 ∨ n = 0x09 ∨ n = 0x0A ∨ n = 0x0D then some (.idle, toks)
  else if n = 0x7B then some (.idle, .lbrace :: toks)
  else if n = 0x7D then some (.idle, .rbrace :: toks)
  else if n = 0x5B then some (.idle, .lbrack :: toks)
  else if n = 0x5D then some (.idle, .rbrack :: toks)
  else if n = 0x3A then some (.idle, .colon :: toks)
  else if n = 0x2C then some (.idle, .comma :: toks)
  else if n = 0x22 then some (.str [], toks)
  else if isAtomChar c then some (.atom [c], toks)
  else none

/-- The code unit of a one-character escape `\" \\ \/ \b \f \n \r \t`. -/
def escapeUnit (c : Char) : Option Nat :=
  let n := c.toNat
  if n = 0x22 then some 0x22
  else if n = 0x5C then some 0x5C
  else if n = 0x2F then some 0x2F
  else if c = 'b' then some 0x08
  else if c = 'f' then some 0x0C
  else if c = 'n' then some 0x0A
  else if c = 'r' then some 0x0D
  else if c = 't' then some 0x09
  else none

/-- The lexer of JSON texts; `toks` and the code units are kept reversed. -/
def lexFrom : LexMode → List Token → List Char → Option (List Token)
  | .idle, toks, [] => some toks.reverse
  | .atom cs, toks, [] => (atomToken cs.reverse).map (fun t => (t :: toks).reverse)
  | .str _, _, [] => none
  | .esc _, _, [] => none
  | .hex _ _, _, [] => none
  | .idle, toks, c :: rest =>
    match lexIdle toks c with
    | none => none
    | some (m, toks2) => lexFrom m toks2 rest
  | .atom cs, toks, c :: rest =>
    if isAtomChar c then lexFrom (.atom (c :: cs)) toks rest
    else
      match atomToken cs.reverse with
      | none => none
      | some t =>
        match lexIdle (t :: toks) c with
        | none => none
        | some (m, toks2) => lexFrom m toks2 rest
  | .str us, toks, c :: rest =>
    if c.toNat = 0x22 then
      lexFrom .idle (.str (String.mk (decodeUtf16 us.reverse)) :: toks) rest
    else if c.toNat = 0x5C then lexFrom (.esc us) toks rest
    else if c.toNat < 0x20 then none
    else lexFrom (.str ((charUnits c).reverse ++ us)) toks rest
  | .esc us, toks, c :: rest =>
    match escapeUnit c with
    | some u => lexFrom (.str (u :: us)) toks rest
    | none => if c = 'u' then lexFrom (.hex us []) toks rest else none
  | .hex us ds, toks, c :: rest =>
    match hexValue c with
    | none => none
    | some d =>
      if ds.length = 3 then
        lexFrom (.str ((ds ++ [d]).foldl (fun acc h => 16 * acc + h) 0 :: us)) toks rest
      else lexFrom (.hex us (ds ++ [d])) toks rest

/-- CreateDataProperty on an object under construction: a repeated key keeps
its place and takes the new value. -/
def objSet : List (String × Json) → String → Json → List (String × Json)
  | [], k, v => [(k, v)]
  | (k2, v2) :: rest, k, v =>
    if k2 = k then (k, v) :: rest else (k2, v2) :: objSet rest k v

/-- An array or object whose closing bracket has not been read yet. -/
inductive Frame where
  | arr (items : List Json)
  | obj (members : List (String × Json)) (key : String)

/-- What the parser expects next. -/
inductive Expect where
  | value
  | arrFirst
  | objFirst
  | objKey
  | colon
  | after
  | done (v : Json)

/-- A value has been completed below the frames `stack`. -/
def complete (stack : List Frame) (v : Json) : List Frame × Expect :=
  match stack with
  | [] => ([], .done v)
  | .arr items :: rest => (.arr (v :: items) :: rest, .after)
  | .obj members key :: rest => (.obj (objSet members key v) key :: rest, .after)

/-- One token of the grammar of JSON values. -/
def parseStep : List Frame × Expect → Token → Option (List Frame × Expect)
  | (stack, .value), .lbrack => some (.arr [] :: stack, .arrFirst)
  | (stack, .value), .lbrace => some (.obj [] "" :: stack, .objFirst)
  | (stack, .value), .str s => some (complete stack (.str s))
  | (stack, .value), .val j => some (complete stack j)
  | (stack, .arrFirst), .lbrack => some (.arr [] :: stack, .arrFirst)
  | (stack, .arrFirst), .lbrace => some (.obj [] "" :: stack, .objFirst)
  | (stack, .arrFirst), .str s => some (complete stack (.str s))
  | (stack, .arrFirst), .val j => some (complete stack j)
  | (.arr items :: stack, .arrFirst), .rbrack => some (complete stack (.arr items.reverse))
  | (.obj members _ :: stack, .objFirst), .rbrace => some (complete stack (.obj members))
  | (.obj members _ :: stack, .objFirst), .str s => some (.obj members s :: stack, .colon)
  | (.obj members _ :: stack, .objKey), .str s => some (.obj members s :: stack, .colon)
  | (stack, .colon), .colon => some (stack, .value)
  | (.arr items :: stack, .after), .comma => some (.arr items :: stack, .value)
  | (.arr items :: stack, .after), .rbrack => some (complete stack (.arr items.reverse))
  | (.obj members key :: stack, .after), .comma => some (.obj members key :: stack, .objKey)
  | (.obj members _ :: stack, .after), .rbrace => some (complete stack (.obj members))
  | _, _ => none

def parseTokens : List Frame × Expect → List Token → Option Json
  | (_, .done v), [] => some v
  | _, [] => none
  | st, t :: rest =>
    match parseStep st t with
    | none => none
    | some st2 => parseTokens st2 rest

/-- The built-in `JSON.parse` (without reviver); `none` is a thrown SyntaxError. -/
def JSON_parse (text : String) : Option Json :=
  match lexFrom .idle [] text.data with
  | none => none
  | some toks => parseTokens ([], .value) toks

/-! ## `JSON.stringify` on the response objects -/

def hexDigit (n : Nat) : Char :=
  if n < 10 then Char.ofNat (0x30 + n) else Char.ofNat (0x61 + (n - 10))

/-- QuoteJSONString, one character. -/
def quoteChar (c : Char) : List Char :=
  let n := c.toNat
  if n = 0x08 then [Char.ofNat 0x5C, 'b']
  else if n = 0x09 then [Char.ofNat 0x5C, 't']
  else if n = 0x0A then [Char.ofNat 0x5C, 'n']
  else if n = 0x0C then [Char.ofNat 0x5C, 'f']
  else if n = 0x0D then [Char.ofNat 0x5C, 'r']
  else if n = 0x22 then [Char.ofNat 0x5C, Char.ofNat 0x22]
  else if n = 0x5C then [Char.ofNat 0x5C, Char.ofNat 0x5C]
  else if n < 0x20 then [Char.ofNat 0x5C, 'u', '0', '0', hexDigit (n / 16), hexDigit (n % 16)]
  else [c]

/-- QuoteJSONString. -/
def quoteJSONString (s : String) : List Char :=
  Char.ofNat 0x22 :: (s.data.flatMap quoteChar ++ [Char.ofNat 0x22])

def stringifyMembers : List (String × String) → List Char
  | [] => []
  | [(k, v)] => quoteJSONString k ++ ':' :: quoteJSONString v
  | (k, v) :: m :: rest =>
    quoteJSONString k ++ ':' :: quoteJSONString v ++ ',' :: stringifyMembers (m :: rest)

/-- The built-in `JSON.stringify` applied to an object literal whose
properties are all strings, the only way the handler uses it. -/
def JSON_stringify (members : List (String × String)) : String :=
  String.mk (Char.ofNat 0x7B :: (stringifyMembers members ++ [Char.ofNat 0x7D]))

/-! ## Values: truthiness, `typeof`, property access, conversion to string -/

/-- ToBoolean. -/
def truthy : Option Json → Bool
  | none => false
  | some .null => false
  | some (.bool b) => b
  | some (.num n) => !n.isZero
  | some (.str s) => s != ""
  | some (.arr _) => true
  | some (.obj _) => true

/-- The operator `typeof`. -/
def typeOf : Option Json → String
  | none => "undefined"
  | some .null => "object"
  | some (.bool _) => "boolean"
  | some (.num _) => "number"
  | some (.str _) => "string"
  | some (.arr _) => "object"
  | some (.obj _) => "object"

/-- Property access `v[key]` for the keys the handler reads
(`surveyResponses`, `q21`, `name-q21`, `email-q21`, `phone-q21`), none of which
is a property of a built-in prototype: reading from `undefined` or `null`
throws, an object gives its own member, anything else gives `undefined`. -/
def getProp : Option Json → String → Except JsError (Option Json)
  | none, _ => .error .typeError
  | some .null, _ => .error .typeError
  | some (.obj kvs), key => .ok (kvs.lookup key)
  | some _, _ => .ok none

/-- Both results, joined by `sep`, unless one of the conversions threw. -/
def glue (sep : String) : Option String → Option String → Option String
  | some a, some b => some (a ++ sep ++ b)
  | _, _ => none

mutual
/-- ToString of a parsed value, `none` when it throws a TypeError.
`nullText` is the text given for `null`: `"null"` for ToString itself and the
empty string for an element inside `Array.prototype.join`.  An array is
converted by `Array.prototype.toString`, which joins with a comma; an object
is `[object Object]` unless it carries its own `toString` member, which after
`JSON.parse` is never callable, so that the conversion throws. -/
def strOf (fmt : JNum → String) (nullText : String) : Json → Option String
  | .null => some nullText
  | .bool b => some (if b then "true" else "false")
  | .num n => some (fmt n)
  | .str s => some s
  | .arr xs => joinEls fmt "," xs
  | .obj kvs => if kvs.any (fun kv => kv.1 == "toString") then none else some "[object Object]"
termination_by structural j => j
/-- The method `Array.prototype.join` with separator `sep`. -/
def joinEls (fmt : JNum → String) (sep : String) : List Json → Option String
  | [] => some ""
  | [x] => strOf fmt "" x
  | x :: y :: rest => glue sep (strOf fmt "" x) (joinEls fmt sep (y :: rest))
termination_by structural l => l
end

/-! ## The regular expression of the e-mail check -/

/-- Members of a character class. -/
inductive ClassItem where
  | space
  | chr (c : Char)

def ClassItem.test : ClassItem → Char → Bool
  | .space, x => isWhiteSpace x
  | .chr c, x => x == c

/-- A pattern character or a class `[...]`, negated (`[^...]`) or not. -/
inductive Atom where
  | lit (c : Char)
  | cls (negated : Bool) (items : List ClassItem)

def Atom.test : Atom → Char → Bool
  | .lit c, x => x == c
  | .cls negated items, x => negated != items.any (fun i => i.test x)

/-- An atom, once or with the quantifier `+`. -/
inductive Term where
  | one (a : Atom)
  | plus (a : Atom)

/-- Backtracking match of `^ terms $` against the whole input: a `+` first
tries to take one more character and then to go on with the rest of the
pattern. -/
def matchTerms : List Term → List Char → Bool
  | [], [] => true
  | [], _ :: _ => false
  | _ :: _, [] => false
  | .one a :: ts, x :: xs => a.test x && matchTerms ts xs
  | .plus a :: ts, x :: xs => a.test x && (matchTerms (.plus a :: ts) xs || matchTerms ts xs)

/-- The class `[^\s@]`. -/
def notSpaceAt : Atom := .cls true [.space, .chr '@']

/-- The pattern `/^[^\s@]+@[^\s@]+\.[^\s@]+$/`. -/
def emailPattern : List Term :=
  [.plus notSpaceAt, .one (.lit '@'), .plus notSpaceAt, .one (.lit '.'), .plus notSpaceAt]

/-- The call `/^[^\s@]+@[^\s@]+\.[^\s@]+$/.test(email)` on a string. -/
def emailTest (email : String) : Bool := matchTerms emailPattern email.data

/-! ## The platform -/

/-- The fields of the request the handler reads. -/
structure Event where
  httpMethod : String
  body : String
  deriving DecidableEq, Repr

/-- The invocation context supplied by the platform, which gives every
invocation a request id. -/
structure Context where
  awsRequestId : String
  deriving DecidableEq, Repr

/-- What the handler returns. -/
structure HandlerResult where
  statusCode : Nat
  body : String
  deriving DecidableEq, Repr

/-- How the awaited `fetch` ends: a response with an HTTP status, or a
rejection (network failure, or any other exception of the call). -/
inductive FetchOutcome where
  | response (status : Nat)
  | rejected
  deriving DecidableEq, Repr

/-- The property `Response.ok`: a status in the range 200 to 299. -/
def FetchOutcome.ok : FetchOutcome → Bool
  | .response status => decide (200 ≤ status) && decide (status ≤ 299)
  | .rejected => false

/-- Everything outside the handler that one invocation observes: the text of
`new Date().toISOString()`, the outcome of the call to the endpoint, and the
Number-to-string conversion of the engine. -/
structure World where
  now : String
  gas : FetchOutcome
  numberToString : JNum → String

/-- A call made by the handler to a built-in with an effect or to the
endpoint. -/
inductive Call where
  | jsonParse (text : String)
  | consoleError (message : String)
  | consoleLog (message : String) (data : Json)
  | fetch (url : String) (method : String) (formData : List (String × String))

def Call.isFetch : Call → Bool
  | .fetch _ _ _ => true
  | _ => false

def Call.isJsonParse : Call → Bool
  | .jsonParse _ => true
  | _ => false

/-! ## The handler -/

def GAS_URL : String :=
  "https://script.google.com/macros/s/AKfycbzRYBQTeuC4Hgp9-S5ILa6LguppGxb_keBHpcOipEo9oT_fwV7aWhgEc4gfO1fkQflV/exec"

/-- The opt-out option of question 21. -/
def optOut : String := "No, just completing the survey"

def requiredFieldsMessage : String :=
  "Veuillez fournir votre nom, email et numéro de téléphone pour participer aux concours/tests de produits."

def invalidEmailMessage : String := "Le format de l'email est invalide."

def methodNotAllowed : HandlerResult := ⟨405, "Method Not Allowed"⟩

def invalidFormat : HandlerResult :=
  ⟨400, JSON_stringify [("error", "Invalid submission data format.")]⟩

def requiredFields : HandlerResult := ⟨422, JSON_stringify [("error", requiredFieldsMessage)]⟩

def invalidEmail : HandlerResult := ⟨422, JSON_stringify [("error", invalidEmailMessage)]⟩

def saveFailed : HandlerResult :=
  ⟨500, JSON_stringify [("error", "Failed to save to database.")]⟩

def processFailed : HandlerResult :=
  ⟨500, JSON_stringify [("error", "Failed to process submission. Check request format.")]⟩

def success (context : Context) : HandlerResult :=
  ⟨200, JSON_stringify [("message", "Survey submitted successfully!"),
    ("submissionId", context.awsRequestId)]⟩

/-- The test `option !== 'No, just completing the survey'`. -/
def isNotOptOut : Json → Bool
  | .str s => s != optOut
  | _ => true

/-- Line 29: `Array.isArray(q21Answers) && q21Answers.some(option => option !== ...)`. -/
def hasOptedIn : Option Json → Bool
  | some (.arr xs) => xs.any isNotOptOut
  | _ => false

/-- The test `!v || v.trim() === ''` of line 39 on one field: a truthy value
that is not a string has no method `trim`, and the call throws. -/
def emptyField (v : Option Json) : Except JsError Bool :=
  if !truthy v then .ok true
  else
    match v with
    | some (.str s) => .ok (jsTrim s == "")
    | _ => .error .typeError

/-- The condition of line 39, evaluated left to right with short-circuit. -/
def requiredMissing (name email phone : Option Json) : Except JsError Bool :=
  match emptyField name with
  | .error e => .error e
  | .ok true => .ok true
  | .ok false =>
    match emptyField email with
    | .error e => .error e
    | .ok true => .ok true
    | .ok false => emptyField phone

/-- Step 3, lines 25 to 54: `ok none` when the handler goes on to step 4,
`ok (some (result, logged))` when it returns `result` after logging. -/
def validateOptIn (responses : Option Json) : Except JsError (Option (HandlerResult × String)) :=
  match getProp responses "q21" with
  | .error e => .error e
  | .ok q21Answers =>
    if hasOptedIn q21Answers then
      match getProp responses "name-q21", getProp responses "email-q21",
        getProp responses "phone-q21" with
      | .ok name, .ok email, .ok phone =>
        match requiredMissing name email phone with
        | .error e => .error e
        | .ok true =>
          .ok (some (requiredFields,
            "Validation Error: Missing Name, Email, or Phone for Q21 follow-up."))
        | .ok false =>
          -- here `email.trim()` has returned, so `email` is a string
          match email with
          | some (.str address) =>
            if !emailTest address then
              .ok (some (invalidEmail,
                "Validation Error: Invalid Email format for Q21 follow-up."))
            else .ok none
          | _ => .error .typeError
      | _, _, _ => .error .typeError
    else .ok none

/-- The key is a canonical array index (an integer below `2 ^ 32 - 1` written
without leading zeros); such keys are enumerated first, in numeric order. -/
def arrayIndex (key : String) : Option Nat :=
  let cs := key.data
  if cs ≠ [] ∧ cs.all isDigit ∧ (cs = ['0'] ∨ cs.head? ≠ some '0') ∧
      digitsValue cs < 2 ^ 32 - 1 then
    some (digitsValue cs)
  else none

def insertIndexed (e : Nat × String × Json) :
    List (Nat × String × Json) → List (Nat × String × Json)
  | [] => [e]
  | x :: rest => if e.1 < x.1 then e :: x :: rest else x :: insertIndexed e rest

/-- The pairs `(id, responses[id])` visited by `for (const id in responses)`,
in the order of the loop, for the values that reach the loop (arrays and
objects): the indices of an array; for an object the array-index keys in
ascending order and then the other keys in insertion order. -/
def forInEntries : Json → List (String × Json)
  | .arr xs => xs.enum.map (fun p => (toString p.1, p.2))
  | .obj kvs =>
    ((kvs.filterMap (fun kv => (arrayIndex kv.1).map (fun n => (n, kv)))).foldr
        insertIndexed []).map (fun e => e.2)
      ++ kvs.filter (fun kv => (arrayIndex kv.1).isNone)
  | _ => []

/-- Lines 61 to 63 for one answer: an array is replaced by `value.join(', ')`,
and `formData.append` converts the value to a string.  `none` when the
conversion throws. -/
def flatten (fmt : JNum → String) : Json → Option String
  | .arr xs => joinEls fmt ", " xs
  | v => strOf fmt "null" v

/-- The loop of lines 60 to 64 over the remaining entries. -/
def appendAll (fmt : JNum → String) :
    List (String × Json) → List (String × String) → Option (List (String × String))
  | [], formData => some formData
  | (id, value) :: rest, formData =>
    match flatten fmt value with
    | none => none
    | some text => appendAll fmt rest (formData ++ [(id, text)])

/-- Lines 58 to 64: the form data sent to the endpoint, `none` when building
it throws. -/
def buildFormData (w : World) (responses : Json) : Option (List (String × String)) :=
  appendAll w.numberToString (forInEntries responses) [("timestamp", w.now)]

/-- Steps 4 and 5, lines 56 to 81. -/
def deliver (w : World) (data responses : Json) (context : Context) :
    HandlerResult × List Call :=
  match buildFormData w responses with
  | none => (saveFailed, [.consoleError "Error submitting to Google Sheets:"])
  | some formData =>
    match w.gas with
    | .rejected =>
      (saveFailed,
        [.fetch GAS_URL "POST" formData, .consoleError "Error submitting to Google Sheets:"])
    | .response status =>
      if !(FetchOutcome.response status).ok then
        (saveFailed,
          [.fetch GAS_URL "POST" formData, .consoleError "Failed to submit to Google Sheets"])
      else
        (success context,
          [.fetch GAS_URL "POST" formData,
           .consoleLog
             "Received and validated new survey submission (including optional opt-in checks):"
             data])

/-- The body of the outer `try`, lines 12 to 81: the value returned or the
exception thrown, and the calls made. -/
def tryBlock (w : World) (event : Event) (context : Context) :
    Except JsError HandlerResult × List Call :=
  match JSON_parse event.body with
  | none => (.error .parseError, [.jsonParse event.body])
  | some data =>
    match getProp (some data) "surveyResponses" with
    | .error e => (.error e, [.jsonParse event.body])
    | .ok responses =>
      if !truthy (some data) || !truthy responses || typeOf responses != "object" then
        (.ok invalidFormat,
          [.jsonParse event.body,
           .consoleError "Validation Error: Missing or invalid surveyResponses object."])
      else
        match validateOptIn responses with
        | .error e => (.error e, [.jsonParse event.body])
        | .ok (some (result, logged)) =>
          (.ok result, [.jsonParse event.body, .consoleError logged])
        | .ok none =>
          match responses with
          | some r =>
            (.ok (deliver w data r context).1,
              .jsonParse event.body :: (deliver w data r context).2)
          | none => (.error .typeError, [.jsonParse event.body])

/-- The function `exports.handler`: the result and the calls made, in order. -/
def handler (w : World) (event : Event) (context : Context) : HandlerResult × List Call :=
  if event.httpMethod ≠ "POST" then (methodNotAllowed, [])
  else
    match tryBlock w event context with
    | (.ok result, calls) => (result, calls)
    | (.error _, calls) =>
      (processFailed,
        calls ++ [.consoleError "Submission failed due to JSON parsing or unexpected error:"])

/-! ## The data model of the specification -/

/-- An answer of the data model: a string or a sequence of strings. -/
def isAnswer : Json → Bool
  | .str _ => true
  | .arr xs => xs.all (fun x => match x with
    | .str _ => true
    | _ => false)
  | _ => false

/-- SurveyPayload: every answer of the mapping is a string or a sequence of
strings. -/
def SurveyPayload (responses : List (String × Json)) : Prop :=
  ∀ kv ∈ responses, isAnswer kv.2 = true

/-- The number of calls to the endpoint among the calls of one invocation. -/
def fetchCount (calls : List Call) : Nat := calls.countP Call.isFetch

/-- The number of calls to `JSON.parse` among the calls of one invocation. -/
def parseCount (calls : List Call) : Nat := calls.countP Call.isJsonParse

/-- The text sent for an answer of the data model. -/
def answerText : Json → String
  | .str s => s
  | .arr xs => ", ".intercalate (xs.filterMap (fun x => match x with
    | .str t => some t
    | _ => none))
  | _ => ""

/-- The form `L@X.Y` of the specification: `L`, `X` and `Y` are each one or
more characters that are neither whitespace nor `@`. -/
def EmailForm (s : String) : Prop :=
  ∃ L X Y : List Char, s.data = L ++ '@' :: (X ++ '.' :: Y) ∧
    L ≠ [] ∧ X ≠ [] ∧ Y ≠ [] ∧
    (∀ c ∈ L, isWhiteSpace c = false ∧ c ≠ '@') ∧
    (∀ c ∈ X, isWhiteSpace c = false ∧ c ≠ '@') ∧
    (∀ c ∈ Y, isWhiteSpace c = false ∧ c ≠ '@')

/-- The field is missing or is a string that is empty after trimming. -/
def missingOrBlank : Option Json → Bool
  | none => true
  | some (.str s) => jsTrim s == ""
  | _ => false

/-- The field is absent or is a string. -/
def absentOrString : Option Json → Bool
  | none => true
  | some (.str _) => true
  | _ => false

/-- The form data of the calls to the endpoint among the calls of one
invocation, in order. -/
def sentRecords : List Call → List (List (String × String))
  | [] => []
  | .fetch _ _ formData :: rest => formData :: sentRecords rest
  | .jsonParse _ :: rest => sentRecords rest
  | .consoleError _ :: rest => sentRecords rest
  | .consoleLog _ _ :: rest => sentRecords rest

/-- The characterisation of the accepted addresses in words: no whitespace
character, exactly one `@`, at least one character before it, and after it a
part that contains a `.` which is neither its first nor its last character. -/
def EmailShape (s : String) : Prop :=
  (∀ c ∈ s.data, isWhiteSpace c = false) ∧ s.data.count '@' = 1 ∧
  ∃ before rest : List Char, s.data = before ++ '@' :: rest ∧ before ≠ [] ∧
    ∃ p q : List Char, rest = p ++ '.' :: q ∧ p ≠ [] ∧ q ≠ []

/-- The platform runs the handler once for each request, each invocation in
its own world.  The module keeps nothing between invocations: its only
top-level binding is the constant `GAS_URL`. -/
def serve (requests : List (World × Event × Context)) : List (HandlerResult × List Call) :=
  requests.map (fun i => handler i.1 i.2.1 i.2.2)

mutual
/-- Every object inside the value has each key once. -/
def Json.keysOnce : Json → Bool
  | .null => true
  | .bool _ => true
  | .num _ => true
  | .str _ => true
  | .arr xs => allKeysOnce xs
  | .obj kvs => decide ((kvs.map Prod.fst).Nodup) && membersKeysOnce kvs
termination_by structural j => j
def allKeysOnce : List Json → Bool
  | [] => true
  | x :: rest => x.keysOnce && allKeysOnce rest
termination_by structural l => l
def membersKeysOnce : List (String × Json) → Bool
  | [] => true
  | kv :: rest => pairKeysOnce kv && membersKeysOnce rest
termination_by structural l => l
def pairKeysOnce : String × Json → Bool
  | (_, v) => v.keysOnce
termination_by structural p => p
end

def Frame.keysOnce : Frame → Bool
  | .arr items => allKeysOnce items
  | .obj members _ => decide ((members.map Prod.fst).Nodup) && membersKeysOnce members

def Token.keysOnce : Token → Bool
  | .val j => j.keysOnce
  | _ => true

def Expect.keysOnce : Expect → Bool
  | .done v => v.keysOnce
  | _ => true

theorem handler_not_post (w : World) (event : Event) (context : Context)
    (h : event.httpMethod ≠ "POST") :
    handler w event context = (methodNotAllowed, []) := by
  simp [handler, h]

theorem handler_parse_failed (w : World) (event : Event) (context : Context)
    (hm : event.httpMethod = "POST") (hp : JSON_parse event.body = none) :
    handler w event context =
      (processFailed,
        [.jsonParse event.body,
         .consoleError "Submission failed due to JSON parsing or unexpected error:"]) := by
  simp [handler, tryBlock, hm, hp]

theorem handler_null (w : World) (event : Event) (context : Context)
    (hm : event.httpMethod = "POST") (hp : JSON_parse event.body = some .null) :
    handler w event context =
      (processFailed,
        [.jsonParse event.body,
         .consoleError "Submission failed due to JSON parsing or unexpected error:"]) := by
  simp [handler, tryBlock, hm, hp, getProp]

theorem handler_bad_shape (w : World) (event : Event) (context : Context) (data : Json)
    (responses : Option Json)
    (hm : event.httpMethod = "POST") (hp : JSON_parse event.body = some data)
    (hr : getProp (some data) "surveyResponses" = .ok responses)
    (hs : (!truthy (some data) || !truthy responses || typeOf responses != "object") = true) :
    handler w event context =
      (invalidFormat,
        [.jsonParse event.body,
         .consoleError "Validation Error: Missing or invalid surveyResponses object."]) := by
  simp only [handler, tryBlock, hm, hp, hr, hs]
  simp

/-- A request that passes the shape check: the handler is decided by the
opt-in validation and then by the delivery. -/
theorem handler_good_shape (w : World) (event : Event) (context : Context) (data r : Json)
    (hm : event.httpMethod = "POST") (hp : JSON_parse event.body = some data)
    (hr : getProp (some data) "surveyResponses" = .ok (some r))
    (hs : (!truthy (some data) || !truthy (some r) || typeOf (some r) != "object") = false) :
    handler w event context =
      match validateOptIn (some r) with
      | .error _ =>
        (processFailed,
          [.jsonParse event.body,
           .consoleError "Submission failed due to JSON parsing or unexpected error:"])
      | .ok (some (result, logged)) => (result, [.jsonParse event.body, .consoleError logged])
      | .ok none =>
        ((deliver w data r context).1, .jsonParse event.body :: (deliver w data r context).2) := by
  simp only [handler, tryBlock, hm, hp, hr, hs]
  cases hv : validateOptIn (some r) with
  | error e => simp
  | ok o =>
    cases o with
    | none => simp
    | some p => obtain ⟨result, logged⟩ := p; simp

/-! ## Flattening and delivery: auxiliary facts -/

theorem intercalate_go_append (sep p q : String) (l : List String) :
    String.intercalate.go (p ++ q) sep l = p ++ String.intercalate.go q sep l := by
  induction l generalizing q with
  | nil => simp [String.intercalate.go]
  | cons a rest ih =>
    simp only [String.intercalate.go]
    rw [String.append_assoc, String.append_assoc, ih, String.append_assoc]

theorem intercalate_cons_cons (sep a b : String) (rest : List String) :
    sep.intercalate (a :: b :: rest) = a ++ sep ++ sep.intercalate (b :: rest) := by
  simp only [String.intercalate, String.intercalate.go]
  rw [intercalate_go_append]

/-- Joining a sequence of strings gives the elements in order with the
separator between consecutive elements, and never throws. -/
theorem joinEls_strings (fmt : JNum → String) (sep : String) (xs : List String) :
    joinEls fmt sep (xs.map Json.str) = some (sep.intercalate xs) := by
  induction xs with
  | nil => simp [joinEls, String.intercalate]
  | cons a rest ih =>
    cases rest with
    | nil => simp [joinEls, strOf, String.intercalate, String.intercalate.go]
    | cons b rest2 =>
      simp only [List.map_cons] at ih ⊢
      rw [joinEls, ih, intercalate_cons_cons]
      simp [strOf, glue]

theorem all_str_eq_map (xs : List Json)
    (h : xs.all (fun x => match x with
      | .str _ => true
      | _ => false) = true) :
    ∃ ys : List String, xs = ys.map Json.str := by
  induction xs with
  | nil => exact ⟨[], rfl⟩
  | cons x rest ih =>
    simp only [List.all_cons, Bool.and_eq_true] at h
    obtain ⟨ys, hys⟩ := ih h.2
    cases x with
    | str t => exact ⟨t :: ys, by simp [hys]⟩
    | null => simp at h
    | bool b => simp at h
    | num n => simp at h
    | arr l => simp at h
    | obj l => simp at h

theorem flatten_answer (fmt : JNum → String) (v : Json) (h : isAnswer v = true) :
    flatten fmt v = some (answerText v) := by
  cases v with
  | str t => simp [flatten, strOf, answerText]
  | arr xs =>
    obtain ⟨ys, rfl⟩ := all_str_eq_map xs (by simpa [isAnswer] using h)
    simp only [flatten, answerText]
    rw [joinEls_strings, List.filterMap_map]
    have hf : ((fun x : Json => match x with
      | .str t => some t
      | _ => none) ∘ Json.str) = some := by
      funext t; rfl
    rw [hf, List.filterMap_some]
  | null => simp [isAnswer] at h
  | bool b => simp [isAnswer] at h
  | num n => simp [isAnswer] at h
  | obj l => simp [isAnswer] at h

theorem appendAll_answers (fmt : JNum → String) (entries : List (String × Json))
    (h : ∀ e ∈ entries, isAnswer e.2 = true) (formData : List (String × String)) :
    appendAll fmt entries formData =
      some (formData ++ entries.map (fun e => (e.1, answerText e.2))) := by
  induction entries generalizing formData with
  | nil => simp [appendAll]
  | cons e rest ih =>
    obtain ⟨id, value⟩ := e
    have hv : isAnswer value = true := h (id, value) (List.mem_cons_self _ _)
    simp only [appendAll, flatten_answer fmt value hv]
    rw [ih (fun e he => h e (List.mem_cons_of_mem _ he))]
    simp

theorem mem_insertIndexed (e t : Nat × String × Json) (l : List (Nat × String × Json)) :
    t ∈ insertIndexed e l ↔ t = e ∨ t ∈ l := by
  induction l with
  | nil => simp [insertIndexed]
  | cons x rest ih =>
    simp only [insertIndexed]
    split
    · simp
    · simp only [List.mem_cons, ih]
      tauto

theorem mem_foldr_insertIndexed (t : Nat × String × Json) (l : List (Nat × String × Json)) :
    t ∈ l.foldr insertIndexed [] ↔ t ∈ l := by
  induction l with
  | nil => simp
  | cons x rest ih => simp [List.foldr_cons, mem_insertIndexed, ih]

/-- Every entry visited by the loop over an object is a member of the object. -/
theorem forInEntries_obj_subset (kvs : List (String × Json)) :
    ∀ e ∈ forInEntries (.obj kvs), e ∈ kvs := by
  intro e he
  simp only [forInEntries, List.mem_append, List.mem_map, List.mem_filter] at he
  rcases he with ⟨t, ht, rfl⟩ | ⟨h, _⟩
  · rw [mem_foldr_insertIndexed] at ht
    simp only [List.mem_filterMap, Option.map_eq_some'] at ht
    obtain ⟨kv, hkv, n, _, rfl⟩ := ht
    exact hkv
  · exact h

/-- For a payload of the data model the form data is built without an
exception. -/
theorem buildFormData_payload (w : World) (rs : List (String × Json)) (h : SurveyPayload rs) :
    buildFormData w (.obj rs) =
      some (("timestamp", w.now) ::
        (forInEntries (.obj rs)).map (fun e => (e.1, answerText e.2))) := by
  unfold buildFormData
  rw [appendAll_answers _ _ (fun e he => h e (forInEntries_obj_subset rs e he))]
  simp

/-- The result of steps 4 and 5. -/
theorem deliver_result (w : World) (data r : Json) (context : Context) :
    (deliver w data r context).1 =
      if (buildFormData w r).isSome && w.gas.ok then success context else saveFailed := by
  unfold deliver
  cases hb : buildFormData w r with
  | none => simp
  | some fd =>
    cases hg : w.gas with
    | rejected => simp [FetchOutcome.ok]
    | response st => by_cases hok : (FetchOutcome.response st).ok = true <;> simp [hok]

/-- The endpoint is called once when the form data could be built, and not
at all otherwise. -/
theorem deliver_fetchCount (w : World) (data r : Json) (context : Context) :
    fetchCount (deliver w data r context).2 = if (buildFormData w r).isSome then 1 else 0 := by
  unfold deliver
  cases hb : buildFormData w r with
  | none => simp [fetchCount, Call.isFetch]
  | some fd =>
    cases hg : w.gas with
    | rejected => simp [fetchCount, Call.isFetch]
    | response st =>
      by_cases hok : (FetchOutcome.response st).ok = true <;>
        simp [hok, fetchCount, Call.isFetch]

/-- Without an opt-in the validation of step 3 lets the request through. -/
theorem validateOptIn_not_opted (r : Json) (q : Option Json)
    (hq : getProp (some r) "q21" = .ok q) (hn : hasOptedIn q = false) :
    validateOptIn (some r) = .ok none := by
  simp [validateOptIn, hq, hn]

/-! ## The e-mail pattern: auxiliary facts -/

theorem notSpaceAt_test (c : Char) :
    notSpaceAt.test c = true ↔ (isWhiteSpace c = false ∧ c ≠ '@') := by
  simp [notSpaceAt, Atom.test, ClassItem.test]

theorem matchTerms_nil (s : List Char) : matchTerms [] s = true ↔ s = [] := by
  cases s <;> simp [matchTerms]

theorem matchTerms_one (a : Atom) (ts : List Term) (s : List Char) :
    matchTerms (.one a :: ts) s = true ↔
      ∃ x r, s = x :: r ∧ a.test x = true ∧ matchTerms ts r = true := by
  cases s with
  | nil => simp [matchTerms]
  | cons x xs =>
    simp only [matchTerms, Bool.and_eq_true, List.cons.injEq]
    constructor
    · rintro ⟨h1, h2⟩
      exact ⟨x, xs, ⟨rfl, rfl⟩, h1, h2⟩
    · rintro ⟨y, r, ⟨rfl, rfl⟩, h1, h2⟩
      exact ⟨h1, h2⟩

theorem matchTerms_plus (a : Atom) (ts : List Term) (s : List Char) :
    matchTerms (.plus a :: ts) s = true ↔
      ∃ p r, s = p ++ r ∧ p ≠ [] ∧ (∀ c ∈ p, a.test c = true) ∧ matchTerms ts r = true := by
  induction s with
  | nil =>
    simp only [matchTerms, Bool.false_eq_true, false_iff]
    rintro ⟨p, r, h, hp, _⟩
    cases p with
    | nil => exact hp rfl
    | cons c p2 => simp at h
  | cons x xs ih =>
    simp only [matchTerms, Bool.and_eq_true, Bool.or_eq_true]
    constructor
    · rintro ⟨hx, h | h⟩
      · obtain ⟨p, r, rfl, _, hall, hr⟩ := ih.mp h
        refine ⟨x :: p, r, rfl, by simp, ?_, hr⟩
        intro c hc
        rcases List.mem_cons.mp hc with rfl | hc
        · exact hx
        · exact hall c hc
      · exact ⟨[x], xs, rfl, by simp, by simpa using hx, h⟩
    · rintro ⟨p, r, h, hp, hall, hr⟩
      cases p with
      | nil => exact absurd rfl hp
      | cons c p2 =>
        simp only [List.cons_append, List.cons.injEq] at h
        obtain ⟨rfl, rfl⟩ := h
        refine ⟨hall x (List.mem_cons_self _ _), ?_⟩
        cases p2 with
        | nil => right; simpa using hr
        | cons d p3 =>
          left
          exact ih.mpr ⟨d :: p3, r, rfl, by simp,
            fun c hc => hall c (List.mem_cons_of_mem _ hc), hr⟩

/-- The pattern accepts exactly the strings of the form `L@X.Y`. -/
theorem emailTest_iff (s : String) : emailTest s = true ↔ EmailForm s := by
  unfold emailTest emailPattern EmailForm
  rw [matchTerms_plus]
  constructor
  · rintro ⟨L, r1, hs, hL, hLall, h1⟩
    obtain ⟨x1, r2, rfl, hx1, h2⟩ := (matchTerms_one _ _ _).mp h1
    obtain ⟨X, r3, rfl, hX, hXall, h3⟩ := (matchTerms_plus _ _ _).mp h2
    obtain ⟨x2, r4, rfl, hx2, h4⟩ := (matchTerms_one _ _ _).mp h3
    obtain ⟨Y, r5, rfl, hY, hYall, h5⟩ := (matchTerms_plus _ _ _).mp h4
    have h6 := (matchTerms_nil _).mp h5
    subst h6
    simp only [Atom.test, beq_iff_eq] at hx1 hx2
    subst hx1 hx2
    exact ⟨L, X, Y, by simpa using hs, hL, hX, hY,
      fun c hc => (notSpaceAt_test c).mp (hLall c hc),
      fun c hc => (notSpaceAt_test c).mp (hXall c hc),
      fun c hc => (notSpaceAt_test c).mp (hYall c hc)⟩
  · rintro ⟨L, X, Y, hs, hL, hX, hY, hLall, hXall, hYall⟩
    refine ⟨L, '@' :: (X ++ '.' :: Y), hs, hL,
      fun c hc => (notSpaceAt_test c).mpr (hLall c hc), ?_⟩
    refine (matchTerms_one _ _ _).mpr ⟨'@', X ++ '.' :: Y, rfl, by simp [Atom.test], ?_⟩
    refine (matchTerms_plus _ _ _).mpr ⟨X, '.' :: Y, rfl, hX,
      fun c hc => (notSpaceAt_test c).mpr (hXall c hc), ?_⟩
    refine (matchTerms_one _ _ _).mpr ⟨'.', Y, rfl, by simp [Atom.test], ?_⟩
    exact (matchTerms_plus _ _ _).mpr ⟨Y, [], by simp, hY,
      fun c hc => (notSpaceAt_test c).mpr (hYall c hc), by simp [matchTerms]⟩

/-! ## The opt-in validation: auxiliary facts -/

theorem emptyField_missingOrBlank (v : Option Json) (h : missingOrBlank v = true) :
    emptyField v = .ok true := by
  match v, h with
  | none, _ => simp [emptyField, truthy]
  | some (.str s), h =>
    simp only [missingOrBlank] at h
    by_cases hs : s = ""
    · simp [emptyField, truthy, hs]
    · simp [emptyField, truthy, hs, h]

theorem emptyField_absentOrString (v : Option Json) (h : absentOrString v = true) :
    ∃ b, emptyField v = .ok b := by
  match v, h with
  | none, _ => exact ⟨true, by simp [emptyField, truthy]⟩
  | some (.str s), _ =>
    by_cases hs : s = ""
    · exact ⟨true, by simp [emptyField, truthy, hs]⟩
    · exact ⟨jsTrim s == "", by simp [emptyField, truthy, hs]⟩

theorem emptyField_filled (s : String) (h : jsTrim s ≠ "") :
    emptyField (some (.str s)) = .ok false := by
  have hs : s ≠ "" := by
    rintro rfl
    exact h (by decide)
  simp [emptyField, truthy, hs, h]

theorem hasOptedIn_arr (xs : List Json) (h : ∃ x ∈ xs, x ≠ Json.str optOut) :
    hasOptedIn (some (.arr xs)) = true := by
  obtain ⟨x, hx, hne⟩ := h
  simp only [hasOptedIn, List.any_eq_true]
  refine ⟨x, hx, ?_⟩
  cases x with
  | str t =>
    have : t ≠ optOut := fun h => hne (by rw [h])
    simp [isNotOptOut, this]
  | null => rfl
  | bool b => rfl
  | num n => rfl
  | arr l => rfl
  | obj l => rfl

theorem requiredMissing_of_blank (name email phone : Option Json)
    (h : missingOrBlank name = true ∨
      (absentOrString name = true ∧ missingOrBlank email = true) ∨
      (absentOrString name = true ∧ absentOrString email = true ∧
        missingOrBlank phone = true)) :
    requiredMissing name email phone = .ok true := by
  unfold requiredMissing
  rcases h with h | ⟨hn, h⟩ | ⟨hn, he, h⟩
  · rw [emptyField_missingOrBlank name h]
  · obtain ⟨b, hb⟩ := emptyField_absentOrString name hn
    rw [hb, emptyField_missingOrBlank email h]
    cases b <;> rfl
  · obtain ⟨b, hb⟩ := emptyField_absentOrString name hn
    obtain ⟨c, hc⟩ := emptyField_absentOrString email he
    rw [hb, hc, emptyField_missingOrBlank phone h]
    cases b <;> cases c <;> rfl

/-- Step 3 for a mapping with an opt-in. -/
theorem validateOptIn_opted (rs : List (String × Json))
    (h : hasOptedIn (rs.lookup "q21") = true) :
    validateOptIn (some (.obj rs)) =
      match requiredMissing (rs.lookup "name-q21") (rs.lookup "email-q21")
        (rs.lookup "phone-q21") with
      | .error e => .error e
      | .ok true =>
        .ok (some (requiredFields,
          "Validation Error: Missing Name, Email, or Phone for Q21 follow-up."))
      | .ok false =>
        match rs.lookup "email-q21" with
        | some (.str address) =>
          if !emailTest address then
            .ok (some (invalidEmail,
              "Validation Error: Invalid Email format for Q21 follow-up."))
          else .ok none
        | _ => .error .typeError := by
  simp only [validateOptIn, getProp, h, if_true]

/-- The handler on an opted-in mapping whose three fields are filled strings:
the e-mail test decides between the 422 and the delivery. -/
theorem handler_opted_filled (w : World) (event : Event) (context : Context)
    (members rs : List (String × Json)) (xs : List Json) (name email phone : String)
    (hm : event.httpMethod = "POST")
    (hp : JSON_parse event.body = some (.obj members))
    (hr : members.lookup "surveyResponses" = some (.obj rs))
    (hq : rs.lookup "q21" = some (.arr xs)) (hx : ∃ x ∈ xs, x ≠ Json.str optOut)
    (hn : rs.lookup "name-q21" = some (.str name)) (hn2 : jsTrim name ≠ "")
    (he : rs.lookup "email-q21" = some (.str email)) (he2 : jsTrim email ≠ "")
    (hph : rs.lookup "phone-q21" = some (.str phone)) (hph2 : jsTrim phone ≠ "") :
    handler w event context =
      if emailTest email = true then
        ((deliver w (.obj members) (.obj rs) context).1,
          .jsonParse event.body :: (deliver w (.obj members) (.obj rs) context).2)
      else
        (invalidEmail,
          [.jsonParse event.body,
           .consoleError "Validation Error: Invalid Email format for Q21 follow-up."]) := by
  have hg : getProp (some (.obj members)) "surveyResponses" = .ok (some (.obj rs)) := by
    simp [getProp, hr]
  have ho : hasOptedIn (rs.lookup "q21") = true := by
    rw [hq]; exact hasOptedIn_arr xs hx
  have hreq : requiredMissing (rs.lookup "name-q21") (rs.lookup "email-q21")
      (rs.lookup "phone-q21") = .ok false := by
    rw [hn, he, hph]
    simp [requiredMissing, emptyField_filled, hn2, he2, hph2]
  rw [handler_good_shape w event context (.obj members) (.obj rs) hm hp hg
    (by simp [truthy, typeOf])]
  rw [validateOptIn_opted rs ho, hreq, he]
  by_cases ht : emailTest email = true <;> simp [ht]

/-- A result returned by step 3 is one of the two 422 responses. -/
theorem validateOptIn_result (responses : Option Json) (res : HandlerResult) (msg : String)
    (h : validateOptIn responses = .ok (some (res, msg))) :
    res = requiredFields ∨ res = invalidEmail := by
  unfold validateOptIn at h
  repeat' split at h
  all_goals first
    | (simp only [Except.ok.injEq, Option.some.injEq, Prod.mk.injEq] at h
       obtain ⟨rfl, _⟩ := h
       simp)
    | simp at h

/-- The result of steps 4 and 5 is the 200 or the 500 of a failed save. -/
theorem deliver_cases (w : World) (data r : Json) (context : Context) :
    (deliver w data r context).1 = success context ∨
      (deliver w data r context).1 = saveFailed := by
  rw [deliver_result]
  split
  · exact Or.inl rfl
  · exact Or.inr rfl

/-- A result returned inside the outer `try` is one of five responses. -/
theorem tryBlock_result (w : World) (event : Event) (context : Context)
    (res : HandlerResult) (calls : List Call)
    (h : tryBlock w event context = (.ok res, calls)) :
    res = invalidFormat ∨ res = requiredFields ∨ res = invalidEmail ∨
      res = saveFailed ∨ res = success context := by
  unfold tryBlock at h
  split at h
  · simp at h
  · split at h
    · simp at h
    · split at h
      · simp only [Prod.mk.injEq, Except.ok.injEq] at h
        exact Or.inl h.1.symm
      · split at h
        · simp at h
        · rename_i result logged hv
          simp only [Prod.mk.injEq, Except.ok.injEq] at h
          rcases validateOptIn_result _ _ _ hv with h2 | h2
          · exact Or.inr (Or.inl (h.1 ▸ h2))
          · exact Or.inr (Or.inr (Or.inl (h.1 ▸ h2)))
        · split at h
          · rename_i r _ _ _
            simp only [Prod.mk.injEq, Except.ok.injEq] at h
            rcases deliver_cases w _ r context with h2 | h2
            · exact Or.inr (Or.inr (Or.inr (Or.inr (h.1 ▸ h2))))
            · exact Or.inr (Or.inr (Or.inr (Or.inl (h.1 ▸ h2))))
          · simp at h

/-! ## Method check and parsing (steps 1 and 2) -/

/-- C6: for every request whose method is not exactly `POST`, whatever the
body, the handler returns 405 with the plain text `Method Not Allowed` and
makes no call at all: the body is not parsed and the endpoint is not called. -/
theorem method_other_than_post (w : World) (event : Event) (context : Context)
    (h : event.httpMethod ≠ "POST") :
    (handler w event context).1 = ⟨405, "Method Not Allowed"⟩ ∧
    (handler w event context).2 = [] ∧
    parseCount (handler w event context).2 = 0 ∧
    fetchCount (handler w event context).2 = 0 := by
  rw [handler_not_post w event context h]
  exact ⟨rfl, rfl, rfl, rfl⟩

/-- The methods `post`, `GET` and the empty method, with a body that is not
JSON, are answered 405 without any call. -/
theorem method_other_than_post_witness :
    ("post" ≠ "POST" ∧
      (handler ⟨"t", .response 200, fun _ => "0"⟩ ⟨"post", "not json"⟩ ⟨"id"⟩).1
        = ⟨405, "Method Not Allowed"⟩ ∧
      (handler ⟨"t", .response 200, fun _ => "0"⟩ ⟨"post", "not json"⟩ ⟨"id"⟩).2 = []) ∧
    (handler ⟨"t", .response 200, fun _ => "0"⟩ ⟨"GET", "not json"⟩ ⟨"id"⟩).1
      = ⟨405, "Method Not Allowed"⟩ ∧
    (handler ⟨"t", .response 200, fun _ => "0"⟩ ⟨"", "not json"⟩ ⟨"id"⟩).1
      = ⟨405, "Method Not Allowed"⟩ :=
  ⟨⟨by decide,
    (method_other_than_post ⟨"t", .response 200, fun _ => "0"⟩ ⟨"post", "not json"⟩ ⟨"id"⟩
      (by decide)).1,
    (method_other_than_post ⟨"t", .response 200, fun _ => "0"⟩ ⟨"post", "not json"⟩ ⟨"id"⟩
      (by decide)).2.1⟩,
   (method_other_than_post ⟨"t", .response 200, fun _ => "0"⟩ ⟨"GET", "not json"⟩ ⟨"id"⟩
      (by decide)).1,
   (method_other_than_post ⟨"t", .response 200, fun _ => "0"⟩ ⟨"", "not json"⟩ ⟨"id"⟩
      (by decide)).1⟩

/-- C7: for every POST request whose body is not valid JSON, the handler
returns 500 with `error: 'Failed to process submission. Check request format.'`
and the endpoint is not called. -/
theorem invalid_json_body (w : World) (event : Event) (context : Context)
    (hm : event.httpMethod = "POST") (hp : JSON_parse event.body = none) :
    (handler w event context).1 =
      ⟨500, JSON_stringify [("error", "Failed to process submission. Check request format.")]⟩ ∧
    (handler w event context).1.body =
      "\x7b\"error\":\"Failed to process submission. Check request format.\"\x7d" ∧
    fetchCount (handler w event context).2 = 0 := by
  rw [handler_parse_failed w event context hm hp]
  exact ⟨rfl, rfl, rfl⟩

/-- The body `not json` is not valid JSON and is answered 500 without a call
to the endpoint. -/
theorem invalid_json_body_witness :
    JSON_parse "not json" = none ∧
    (handler ⟨"t", .response 200, fun _ => "0"⟩ ⟨"POST", "not json"⟩ ⟨"id"⟩).1 =
      ⟨500, JSON_stringify [("error", "Failed to process submission. Check request format.")]⟩ ∧
    fetchCount (handler ⟨"t", .response 200, fun _ => "0"⟩ ⟨"POST", "not json"⟩ ⟨"id"⟩).2 = 0 :=
  ⟨rfl,
   (invalid_json_body ⟨"t", .response 200, fun _ => "0"⟩ ⟨"POST", "not json"⟩ ⟨"id"⟩ rfl rfl).1,
   (invalid_json_body ⟨"t", .response 200, fun _ => "0"⟩ ⟨"POST", "not json"⟩ ⟨"id"⟩ rfl rfl).2.2⟩

/-- C3: the body `null` parses to the falsy value `null`, and the handler
answers it 500 with the generic message, not 400: `data.surveyResponses` on
line 13 throws before the test `!data` of line 16 is reached.  The other
falsy values `false`, `0` and the empty string are answered 400. -/
theorem null_body_is_500 (w : World) (context : Context) :
    JSON_parse "null" = some .null ∧ truthy (some .null) = false ∧
    (handler w ⟨"POST", "null"⟩ context).1 = processFailed ∧
    (handler w ⟨"POST", "null"⟩ context).1.statusCode = 500 ∧
    (handler w ⟨"POST", "null"⟩ context).1 ≠ invalidFormat ∧
    (handler w ⟨"POST", "false"⟩ context).1 = invalidFormat ∧
    (handler w ⟨"POST", "0"⟩ context).1 = invalidFormat ∧
    (handler w ⟨"POST", "\"\""⟩ context).1 = invalidFormat := by
  have h : handler w ⟨"POST", "null"⟩ context = _ :=
    handler_null w ⟨"POST", "null"⟩ context rfl rfl
  refine ⟨rfl, rfl, ?_, ?_, ?_, ?_, ?_, ?_⟩
  · rw [h]
  · rw [h]; rfl
  · rw [h]; decide
  · rw [handler_bad_shape w ⟨"POST", "false"⟩ context (.bool false) none rfl rfl rfl rfl]
  · rw [handler_bad_shape w ⟨"POST", "0"⟩ context (.num ⟨false, 0, 0⟩) none rfl rfl rfl rfl]
  · rw [handler_bad_shape w ⟨"POST", "\"\""⟩ context (.str "") none rfl rfl rfl rfl]

/-- C4: for every POST body that parses to an object in which
`surveyResponses` is absent, `null`, a string, a number or a boolean, the
handler returns 400 with `error: 'Invalid submission data format.'` and the
endpoint is not called. -/
theorem responses_absent_or_primitive (w : World) (event : Event) (context : Context)
    (members : List (String × Json))
    (hm : event.httpMethod = "POST")
    (hp : JSON_parse event.body = some (.obj members))
    (hr : members.lookup "surveyResponses" = none ∨
      members.lookup "surveyResponses" = some .null ∨
      (∃ s, members.lookup "surveyResponses" = some (.str s)) ∨
      (∃ n, members.lookup "surveyResponses" = some (.num n)) ∨
      (∃ b, members.lookup "surveyResponses" = some (.bool b))) :
    (handler w event context).1 =
      ⟨400, JSON_stringify [("error", "Invalid submission data format.")]⟩ ∧
    (handler w event context).1.body = "\x7b\"error\":\"Invalid submission data format.\"\x7d" ∧
    fetchCount (handler w event context).2 = 0 := by
  have hs : (!truthy (some (.obj members)) || !truthy (members.lookup "surveyResponses") ||
      typeOf (members.lookup "surveyResponses") != "object") = true := by
    rcases hr with h | h | ⟨s, h⟩ | ⟨n, h⟩ | ⟨b, h⟩ <;> rw [h] <;> simp [truthy, typeOf]
  rw [handler_bad_shape w event context (.obj members) _ hm hp rfl hs]
  exact ⟨rfl, rfl, rfl⟩

/-- The bodies `{}` and `{"surveyResponses": "x"}` are answered 400. -/
theorem responses_absent_or_primitive_witness :
    (handler ⟨"t", .response 200, fun _ => "0"⟩ ⟨"POST", "\x7b\x7d"⟩ ⟨"id"⟩).1 =
      ⟨400, JSON_stringify [("error", "Invalid submission data format.")]⟩ ∧
    (handler ⟨"t", .response 200, fun _ => "0"⟩
      ⟨"POST", "\x7b\"surveyResponses\": \"x\"\x7d"⟩ ⟨"id"⟩).1 =
      ⟨400, JSON_stringify [("error", "Invalid submission data format.")]⟩ :=
  ⟨(responses_absent_or_primitive ⟨"t", .response 200, fun _ => "0"⟩ ⟨"POST", "\x7b\x7d"⟩
      ⟨"id"⟩ [] rfl rfl (Or.inl rfl)).1,
   (responses_absent_or_primitive ⟨"t", .response 200, fun _ => "0"⟩
      ⟨"POST", "\x7b\"surveyResponses\": \"x\"\x7d"⟩ ⟨"id"⟩ [("surveyResponses", .str "x")]
      rfl rfl (Or.inr (Or.inr (Or.inl ⟨"x", rfl⟩)))).1⟩

/-- C5 as stated fails: the body `{"surveyResponses": []}` parses to an object
whose `surveyResponses` is an array, and with a successful call to the
endpoint the handler answers 200, not 400. -/
theorem array_responses_not_rejected :
    JSON_parse "\x7b\"surveyResponses\": []\x7d" = some (.obj [("surveyResponses", .arr [])]) ∧
    (handler ⟨"t", .response 200, fun _ => "0"⟩
      ⟨"POST", "\x7b\"surveyResponses\": []\x7d"⟩ ⟨"id"⟩).1.statusCode = 200 ∧
    (handler ⟨"t", .response 200, fun _ => "0"⟩
      ⟨"POST", "\x7b\"surveyResponses\": []\x7d"⟩ ⟨"id"⟩).1 ≠
      ⟨400, JSON_stringify [("error", "Invalid submission data format.")]⟩ := by
  refine ⟨rfl, rfl, ?_⟩
  decide

/-- C5, amended: for every POST body that parses to an object whose
`surveyResponses` is an array, the shape check of line 16 passes (`typeof` of
an array is `object`), no opt-in is seen (an array has no property `q21`),
and the handler goes on to delivery: it returns 200 when the form data is
built and the call to the endpoint succeeds, and 500 with
`error: 'Failed to save to database.'` otherwise; it never returns 400. -/
theorem array_responses_delivered (w : World) (event : Event) (context : Context)
    (members : List (String × Json)) (xs : List Json)
    (hm : event.httpMethod = "POST")
    (hp : JSON_parse event.body = some (.obj members))
    (hr : members.lookup "surveyResponses" = some (.arr xs)) :
    (handler w event context).1 =
      (if (buildFormData w (.arr xs)).isSome && w.gas.ok then
        ⟨200, JSON_stringify [("message", "Survey submitted successfully!"),
          ("submissionId", context.awsRequestId)]⟩
       else ⟨500, JSON_stringify [("error", "Failed to save to database.")]⟩) ∧
    (handler w event context).1.statusCode ≠ 400 := by
  have hg : getProp (some (.obj members)) "surveyResponses" = .ok (some (.arr xs)) := by
    simp [getProp, hr]
  have hres : (handler w event context).1 = (deliver w (.obj members) (.arr xs) context).1 := by
    rw [handler_good_shape w event context (.obj members) (.arr xs) hm hp hg
      (by simp [truthy, typeOf])]
    rw [validateOptIn_not_opted (.arr xs) none rfl rfl]
  rw [hres, deliver_result]
  constructor
  · rfl
  · split <;> simp [success, saveFailed]

/-- An array of two answers is delivered and answered 200. -/
theorem array_responses_delivered_witness :
    (handler ⟨"t", .response 200, fun _ => "0"⟩
      ⟨"POST", "\x7b\"surveyResponses\": [\"a\", \"b\"]\x7d"⟩ ⟨"id"⟩).1.statusCode ≠ 400 :=
  (array_responses_delivered ⟨"t", .response 200, fun _ => "0"⟩
    ⟨"POST", "\x7b\"surveyResponses\": [\"a\", \"b\"]\x7d"⟩ ⟨"id"⟩
    [("surveyResponses", .arr [.str "a", .str "b"])] [.str "a", .str "b"] rfl rfl rfl).2

/-! ## Opt-in validation (step 3) -/

/-- C8: for every POST payload of the data model in which `q21` is absent, a
plain string, or a sequence (possibly empty) whose every element is the
opt-out option, the opt-in fields are not looked at: whatever `name-q21`,
`email-q21` and `phone-q21` are, no 422 is returned, the endpoint is called
once, and the result is 200 when that call succeeds and 500 with
`error: 'Failed to save to database.'` otherwise. -/
theorem not_opted_in_proceeds (w : World) (event : Event) (context : Context)
    (members rs : List (String × Json))
    (hm : event.httpMethod = "POST")
    (hp : JSON_parse event.body = some (.obj members))
    (hr : members.lookup "surveyResponses" = some (.obj rs))
    (hd : SurveyPayload rs)
    (hq : rs.lookup "q21" = none ∨ (∃ s, rs.lookup "q21" = some (.str s)) ∨
      (∃ xs, rs.lookup "q21" = some (.arr xs) ∧ ∀ x ∈ xs, x = .str optOut)) :
    (handler w event context).1 =
      (if w.gas.ok then
        ⟨200, JSON_stringify [("message", "Survey submitted successfully!"),
          ("submissionId", context.awsRequestId)]⟩
       else ⟨500, JSON_stringify [("error", "Failed to save to database.")]⟩) ∧
    (handler w event context).1.statusCode ≠ 422 ∧
    fetchCount (handler w event context).2 = 1 := by
  have hg : getProp (some (.obj members)) "surveyResponses" = .ok (some (.obj rs)) := by
    simp [getProp, hr]
  have hn : hasOptedIn (rs.lookup "q21") = false := by
    rcases hq with h | ⟨s, h⟩ | ⟨xs, h, hall⟩
    · rw [h]; rfl
    · rw [h]; rfl
    · rw [h]
      simp only [hasOptedIn, List.any_eq_false]
      intro x hx
      rw [hall x hx]
      simp [isNotOptOut]
  have hh : handler w event context =
      ((deliver w (.obj members) (.obj rs) context).1,
        .jsonParse event.body :: (deliver w (.obj members) (.obj rs) context).2) := by
    rw [handler_good_shape w event context (.obj members) (.obj rs) hm hp hg
      (by simp [truthy, typeOf])]
    rw [validateOptIn_not_opted (.obj rs) (rs.lookup "q21") rfl hn]
  have hb := buildFormData_payload w rs hd
  rw [hh]
  simp only [deliver_result, deliver_fetchCount, hb, Option.isSome_some, Bool.true_and]
  refine ⟨rfl, ?_, ?_⟩
  · split <;> simp [success, saveFailed]
  · have hc := deliver_fetchCount w (.obj members) (.obj rs) context
    rw [hb] at hc
    simpa [fetchCount, Call.isFetch] using hc

/-- Scenario 1: the body `{"surveyResponses": {"q21": ["No, just completing
the survey"]}}` with a successful call to the endpoint is answered 200. -/
theorem not_opted_in_proceeds_witness :
    (handler ⟨"t", .response 200, fun _ => "0"⟩
      ⟨"POST", "\x7b\"surveyResponses\": \x7b\"q21\": [\"No, just completing the survey\"]\x7d\x7d"⟩
      ⟨"id"⟩).1 =
      ⟨200, JSON_stringify [("message", "Survey submitted successfully!"),
        ("submissionId", "id")]⟩ ∧
    fetchCount (handler ⟨"t", .response 200, fun _ => "0"⟩
      ⟨"POST", "\x7b\"surveyResponses\": \x7b\"q21\": [\"No, just completing the survey\"]\x7d\x7d"⟩
      ⟨"id"⟩).2 = 1 :=
  have h := not_opted_in_proceeds ⟨"t", .response 200, fun _ => "0"⟩
    ⟨"POST", "\x7b\"surveyResponses\": \x7b\"q21\": [\"No, just completing the survey\"]\x7d\x7d"⟩
    ⟨"id"⟩
    [("surveyResponses", .obj [("q21", .arr [.str optOut])])]
    [("q21", .arr [.str optOut])] rfl rfl rfl
    (by simp [SurveyPayload, isAnswer])
    (Or.inr (Or.inr ⟨[.str optOut], rfl, by simp⟩))
  ⟨h.1, h.2.2⟩

/-- C2 as stated fails: in the payload below every answer is a string or a
sequence of strings, `q21` holds an opt-in, `email-q21` is empty and
`phone-q21` is missing, but `name-q21` is a sequence, so `name.trim()` throws
and the handler answers 500 with the generic message instead of 422. -/
theorem sequence_valued_name_is_500 :
    JSON_parse
        "\x7b\"surveyResponses\": \x7b\"q21\": [\"Yes\"], \"name-q21\": [\"x\"], \"email-q21\": \"\"\x7d\x7d" =
      some (.obj [("surveyResponses",
        .obj [("q21", .arr [.str "Yes"]), ("name-q21", .arr [.str "x"]),
          ("email-q21", .str "")])]) ∧
    SurveyPayload [("q21", .arr [.str "Yes"]), ("name-q21", .arr [.str "x"]),
      ("email-q21", .str "")] ∧
    (handler ⟨"t", .response 200, fun _ => "0"⟩
      ⟨"POST",
        "\x7b\"surveyResponses\": \x7b\"q21\": [\"Yes\"], \"name-q21\": [\"x\"], \"email-q21\": \"\"\x7d\x7d"⟩
      ⟨"id"⟩).1 =
      ⟨500, JSON_stringify [("error", "Failed to process submission. Check request format.")]⟩ ∧
    (handler ⟨"t", .response 200, fun _ => "0"⟩
      ⟨"POST",
        "\x7b\"surveyResponses\": \x7b\"q21\": [\"Yes\"], \"name-q21\": [\"x\"], \"email-q21\": \"\"\x7d\x7d"⟩
      ⟨"id"⟩).1.statusCode ≠ 422 := by
  refine ⟨rfl, ?_, rfl, ?_⟩
  · simp [SurveyPayload, isAnswer]
  · decide

/-- C2, amended: for every POST payload in which `q21` is a sequence with an
element other than the opt-out option, if one of `name-q21`, `email-q21`,
`phone-q21` is missing or is a string that is empty after trimming, and every
field tested before it (in the order name, email, phone) is absent or a
string, then the handler returns 422 with the French required-fields message
and does not call the endpoint, whatever the fields tested after it are and
whether or not the e-mail is well formed. -/
theorem opted_in_missing_field (w : World) (event : Event) (context : Context)
    (members rs : List (String × Json)) (xs : List Json)
    (hm : event.httpMethod = "POST")
    (hp : JSON_parse event.body = some (.obj members))
    (hr : members.lookup "surveyResponses" = some (.obj rs))
    (hq : rs.lookup "q21" = some (.arr xs)) (hx : ∃ x ∈ xs, x ≠ Json.str optOut)
    (hf : missingOrBlank (rs.lookup "name-q21") = true ∨
      (absentOrString (rs.lookup "name-q21") = true ∧
        missingOrBlank (rs.lookup "email-q21") = true) ∨
      (absentOrString (rs.lookup "name-q21") = true ∧
        absentOrString (rs.lookup "email-q21") = true ∧
        missingOrBlank (rs.lookup "phone-q21") = true)) :
    (handler w event context).1 =
      ⟨422, JSON_stringify [("error",
        "Veuillez fournir votre nom, email et numéro de téléphone pour participer aux concours/tests de produits.")]⟩ ∧
    fetchCount (handler w event context).2 = 0 := by
  have hg : getProp (some (.obj members)) "surveyResponses" = .ok (some (.obj rs)) := by
    simp [getProp, hr]
  have ho : hasOptedIn (rs.lookup "q21") = true := by
    rw [hq]; exact hasOptedIn_arr xs hx
  rw [handler_good_shape w event context (.obj members) (.obj rs) hm hp hg
    (by simp [truthy, typeOf])]
  rw [validateOptIn_opted rs ho, requiredMissing_of_blank _ _ _ hf]
  exact ⟨rfl, rfl⟩

/-- Scenario 2: `q21` is `["Yes"]`, the name is empty, the e-mail is `a@b.com`
and the phone is `555`: 422 with the required-fields message. -/
theorem opted_in_missing_field_witness :
    (handler ⟨"t", .response 200, fun _ => "0"⟩
      ⟨"POST",
        "\x7b\"surveyResponses\": \x7b\"q21\": [\"Yes\"], \"name-q21\": \"\", \"email-q21\": \"a@b.com\", \"phone-q21\": \"555\"\x7d\x7d"⟩
      ⟨"id"⟩).1 =
      ⟨422, JSON_stringify [("error",
        "Veuillez fournir votre nom, email et numéro de téléphone pour participer aux concours/tests de produits.")]⟩ :=
  (opted_in_missing_field ⟨"t", .response 200, fun _ => "0"⟩
    ⟨"POST",
      "\x7b\"surveyResponses\": \x7b\"q21\": [\"Yes\"], \"name-q21\": \"\", \"email-q21\": \"a@b.com\", \"phone-q21\": \"555\"\x7d\x7d"⟩
    ⟨"id"⟩
    [("surveyResponses", .obj [("q21", .arr [.str "Yes"]), ("name-q21", .str ""),
      ("email-q21", .str "a@b.com"), ("phone-q21", .str "555")])]
    [("q21", .arr [.str "Yes"]), ("name-q21", .str ""),
      ("email-q21", .str "a@b.com"), ("phone-q21", .str "555")]
    [.str "Yes"] rfl rfl rfl rfl ⟨.str "Yes", by simp, by simp [optOut]⟩
    (Or.inl rfl)).1

/-- C9: for every opted-in POST payload whose `name-q21`, `email-q21` and
`phone-q21` are strings that are not empty after trimming, the handler
returns 422 with `error: "Le format de l'email est invalide."` if and only if
the e-mail does not have the form `L@X.Y` with `L`, `X`, `Y` each one or more
characters that are neither whitespace nor `@`; in particular it does so when
the e-mail has no `@`, or has no `.` followed by at least one character after
an `@`; otherwise the submission goes on to delivery (for a payload of the
data model: one call to the endpoint, 200 when it succeeds and the 500 of a
failed save otherwise). -/
theorem email_format_check (w : World) (event : Event) (context : Context)
    (members rs : List (String × Json)) (xs : List Json) (name email phone : String)
    (hm : event.httpMethod = "POST")
    (hp : JSON_parse event.body = some (.obj members))
    (hr : members.lookup "surveyResponses" = some (.obj rs))
    (hq : rs.lookup "q21" = some (.arr xs)) (hx : ∃ x ∈ xs, x ≠ Json.str optOut)
    (hn : rs.lookup "name-q21" = some (.str name)) (hn2 : jsTrim name ≠ "")
    (he : rs.lookup "email-q21" = some (.str email)) (he2 : jsTrim email ≠ "")
    (hph : rs.lookup "phone-q21" = some (.str phone)) (hph2 : jsTrim phone ≠ "") :
    ((handler w event context).1 =
        ⟨422, JSON_stringify [("error", "Le format de l'email est invalide.")]⟩ ↔
      ¬ EmailForm email) ∧
    ('@' ∉ email.data →
      (handler w event context).1 =
        ⟨422, JSON_stringify [("error", "Le format de l'email est invalide.")]⟩) ∧
    ((∀ A B C : List Char, email.data = A ++ '@' :: (B ++ '.' :: C) → C = []) →
      (handler w event context).1 =
        ⟨422, JSON_stringify [("error", "Le format de l'email est invalide.")]⟩) ∧
    (EmailForm email →
      handler w event context =
        ((deliver w (.obj members) (.obj rs) context).1,
          .jsonParse event.body :: (deliver w (.obj members) (.obj rs) context).2)) ∧
    (EmailForm email → SurveyPayload rs →
      (handler w event context).1 =
        (if w.gas.ok then
          ⟨200, JSON_stringify [("message", "Survey submitted successfully!"),
            ("submissionId", context.awsRequestId)]⟩
         else ⟨500, JSON_stringify [("error", "Failed to save to database.")]⟩) ∧
      fetchCount (handler w event context).2 = 1) := by
  have hh := handler_opted_filled w event context members rs xs name email phone
    hm hp hr hq hx hn hn2 he he2 hph hph2
  have hrej : ¬ EmailForm email → (handler w event context).1 = invalidEmail := by
    intro hne
    have ht : ¬ emailTest email = true := fun h => hne ((emailTest_iff email).mp h)
    rw [hh, if_neg ht]
  have hacc : EmailForm email → handler w event context =
      ((deliver w (.obj members) (.obj rs) context).1,
        .jsonParse event.body :: (deliver w (.obj members) (.obj rs) context).2) := by
    intro hf
    rw [hh, if_pos ((emailTest_iff email).mpr hf)]
  refine ⟨⟨?_, hrej⟩, ?_, ?_, hacc, ?_⟩
  · intro h hf
    rw [hacc hf] at h
    rcases deliver_cases w (.obj members) (.obj rs) context with h2 | h2
    · rw [h2] at h
      exact absurd (congrArg HandlerResult.statusCode h) (by simp [success])
    · rw [h2] at h
      exact absurd (congrArg HandlerResult.statusCode h) (by decide)
  · intro hno
    apply hrej
    rintro ⟨L, X, Y, hs, _⟩
    exact hno (by rw [hs]; simp)
  · intro hno
    apply hrej
    rintro ⟨L, X, Y, hs, _, _, hY, _⟩
    exact hY (hno L X Y hs)
  · intro hf hd
    have hb := buildFormData_payload w rs hd
    have hc := deliver_fetchCount w (.obj members) (.obj rs) context
    rw [hb] at hc
    rw [hacc hf]
    simp only [deliver_result, hb, Option.isSome_some, Bool.true_and]
    refine ⟨rfl, ?_⟩
    simpa [fetchCount, Call.isFetch] using hc

/-- Scenario 3: `q21` is `["Yes"]`, the name is `A`, the e-mail is
`not-an-email` and the phone is `555`: 422 with the invalid-email message. -/
theorem email_format_check_witness :
    (handler ⟨"t", .response 200, fun _ => "0"⟩
      ⟨"POST",
        "\x7b\"surveyResponses\": \x7b\"q21\": [\"Yes\"], \"name-q21\": \"A\", \"email-q21\": \"not-an-email\", \"phone-q21\": \"555\"\x7d\x7d"⟩
      ⟨"id"⟩).1 =
      ⟨422, JSON_stringify [("error", "Le format de l'email est invalide.")]⟩ :=
  (email_format_check ⟨"t", .response 200, fun _ => "0"⟩
    ⟨"POST",
      "\x7b\"surveyResponses\": \x7b\"q21\": [\"Yes\"], \"name-q21\": \"A\", \"email-q21\": \"not-an-email\", \"phone-q21\": \"555\"\x7d\x7d"⟩
    ⟨"id"⟩
    [("surveyResponses", .obj [("q21", .arr [.str "Yes"]), ("name-q21", .str "A"),
      ("email-q21", .str "not-an-email"), ("phone-q21", .str "555")])]
    [("q21", .arr [.str "Yes"]), ("name-q21", .str "A"),
      ("email-q21", .str "not-an-email"), ("phone-q21", .str "555")]
    [.str "Yes"] "A" "not-an-email" "555" rfl rfl rfl rfl
    ⟨.str "Yes", by simp, by simp [optOut]⟩
    rfl (by decide) rfl (by decide) rfl (by decide)).2.1 (by decide)

/-! ## Flattening (step 4) -/

/-- C10: a sequence of strings is sent as its elements in their order with
`, ` between consecutive elements (the empty sequence as the empty string, a
one-element sequence as that element, `['A','B']` as `A, B`); a string is sent
unchanged; the conversion of an answer of the data model never throws and
does not depend on anything but the answer, so that the form data of a
payload of the data model is always built and holds strings only. -/
theorem flattening_rule (fmt : JNum → String) :
    (∀ xs : List String, flatten fmt (.arr (xs.map Json.str)) = some (", ".intercalate xs)) ∧
    flatten fmt (.arr []) = some "" ∧
    (∀ a : String, flatten fmt (.arr [.str a]) = some a) ∧
    (∀ (a b : String) (rest : List String),
      flatten fmt (.arr ((a :: b :: rest).map Json.str)) =
        (flatten fmt (.arr ((b :: rest).map Json.str))).map (fun t => a ++ ", " ++ t)) ∧
    flatten fmt (.arr [.str "A", .str "B"]) = some "A, B" ∧
    (∀ s : String, flatten fmt (.str s) = some s) ∧
    (∀ v : Json, isAnswer v = true →
      (flatten fmt v).isSome = true ∧
        ∀ fmt2 : JNum → String, flatten fmt2 v = flatten fmt v) ∧
    (∀ (w : World) (rs : List (String × Json)), SurveyPayload rs →
      (buildFormData w (.obj rs)).isSome = true) := by
  refine ⟨fun xs => joinEls_strings fmt ", " xs, rfl, fun a => rfl, ?_, rfl, fun s => rfl, ?_,
    fun w rs hd => by rw [buildFormData_payload w rs hd]; rfl⟩
  · intro a b rest
    have h1 := joinEls_strings fmt ", " (a :: b :: rest)
    have h2 := joinEls_strings fmt ", " (b :: rest)
    simp only [flatten]
    rw [h1, h2, intercalate_cons_cons]
    rfl
  · intro v hv
    refine ⟨?_, fun fmt2 => ?_⟩
    · rw [flatten_answer fmt v hv]; rfl
    · rw [flatten_answer fmt v hv, flatten_answer fmt2 v hv]

/-! ## Totality -/

/-- The texts of the JSON bodies. -/
theorem response_texts (context : Context) :
    invalidFormat.body = "\x7b\"error\":\"Invalid submission data format.\"\x7d" ∧
    requiredFields.body =
      "\x7b\"error\":\"Veuillez fournir votre nom, email et numéro de téléphone pour participer aux concours/tests de produits.\"\x7d" ∧
    invalidEmail.body = "\x7b\"error\":\"Le format de l'email est invalide.\"\x7d" ∧
    saveFailed.body = "\x7b\"error\":\"Failed to save to database.\"\x7d" ∧
    processFailed.body =
      "\x7b\"error\":\"Failed to process submission. Check request format.\"\x7d" ∧
    (success context).body =
      "\x7b\"message\":\"Survey submitted successfully!\",\"submissionId\":" ++
        String.mk (quoteJSONString context.awsRequestId) ++ "\x7d" := by
  exact ⟨by decide, by decide, by decide, by decide, by decide, rfl⟩

/-- C1: the handler is a total function of the request, the context and the
outcome of the external call, and its result is always one of seven
responses: 405 `Method Not Allowed`, 400 invalid format, 422 required fields,
422 invalid e-mail, 500 failed save, 500 failed processing, or 200 with the
success message and the request id of the context. -/
theorem handler_seven_responses (w : World) (event : Event) (context : Context) :
    (handler w event context).1 = ⟨405, "Method Not Allowed"⟩ ∨
    (handler w event context).1 =
      ⟨400, JSON_stringify [("error", "Invalid submission data format.")]⟩ ∨
    (handler w event context).1 =
      ⟨422, JSON_stringify [("error",
        "Veuillez fournir votre nom, email et numéro de téléphone pour participer aux concours/tests de produits.")]⟩ ∨
    (handler w event context).1 =
      ⟨422, JSON_stringify [("error", "Le format de l'email est invalide.")]⟩ ∨
    (handler w event context).1 =
      ⟨500, JSON_stringify [("error", "Failed to save to database.")]⟩ ∨
    (handler w event context).1 =
      ⟨500, JSON_stringify [("error", "Failed to process submission. Check request format.")]⟩ ∨
    (handler w event context).1 =
      ⟨200, JSON_stringify [("message", "Survey submitted successfully!"),
        ("submissionId", context.awsRequestId)]⟩ := by
  unfold handler
  split
  · exact Or.inl rfl
  · cases ht : tryBlock w event context with
    | mk outcome calls =>
      cases outcome with
      | error e =>
        iterate 5 right
        exact Or.inl rfl
      | ok res =>
        have h := tryBlock_result w event context res calls ht
        simp only [invalidFormat, requiredFields, requiredFieldsMessage, invalidEmail,
          invalidEmailMessage, saveFailed, success] at h
        tauto

/-! ## Parsed objects have each key once -/

theorem mem_of_lookup (k : String) (v : Json) (rs : List (String × Json))
    (h : rs.lookup k = some v) : (k, v) ∈ rs := by
  induction rs with
  | nil => simp at h
  | cons kv rest ih =>
    obtain ⟨a, b⟩ := kv
    by_cases hk : k = a
    · subst hk
      simp only [List.lookup_cons, beq_self_eq_true] at h
      simp only [Option.some.injEq] at h
      rw [h]
      exact List.mem_cons_self _ _
    · have hb : (k == a) = false := by simpa using hk
      simp only [List.lookup_cons, hb] at h
      exact List.mem_cons_of_mem _ (ih h)

theorem insertIndexed_perm (e : Nat × String × Json) (l : List (Nat × String × Json)) :
    (insertIndexed e l).Perm (e :: l) := by
  induction l with
  | nil => exact List.Perm.refl _
  | cons x rest ih =>
    simp only [insertIndexed]
    split
    · exact List.Perm.refl _
    · exact (List.Perm.cons x ih).trans (List.Perm.swap e x rest)

theorem foldr_insertIndexed_perm (l : List (Nat × String × Json)) :
    (l.foldr insertIndexed []).Perm l := by
  induction l with
  | nil => exact List.Perm.refl _
  | cons x rest ih =>
    simp only [List.foldr_cons]
    exact (insertIndexed_perm x _).trans (List.Perm.cons x ih)

/-- The loop over an object visits every member exactly once. -/
theorem forInEntries_obj_perm (kvs : List (String × Json)) :
    (forInEntries (.obj kvs)).Perm kvs := by
  have h1 : ((kvs.filterMap (fun kv => (arrayIndex kv.1).map (fun n => (n, kv)))).foldr
      insertIndexed []).map (fun e => e.2) =
      ((kvs.filterMap (fun kv => (arrayIndex kv.1).map (fun n => (n, kv)))).foldr
        insertIndexed []).map Prod.snd := rfl
  have h2 : (kvs.filterMap (fun kv => (arrayIndex kv.1).map (fun n => (n, kv)))).map Prod.snd =
      kvs.filter (fun kv => (arrayIndex kv.1).isSome) := by
    induction kvs with
    | nil => rfl
    | cons kv rest ih =>
      cases hk : arrayIndex kv.1 with
      | none => simp [List.filterMap_cons, List.filter_cons, hk, ih]
      | some n => simp [List.filterMap_cons, List.filter_cons, hk, ih]
  have h3 : (fun kv : String × Json => (arrayIndex kv.1).isNone) =
      (fun kv => !(fun kv : String × Json => (arrayIndex kv.1).isSome) kv) := by
    funext kv
    show (arrayIndex kv.1).isNone = !(arrayIndex kv.1).isSome
    cases arrayIndex kv.1 <;> rfl
  simp only [forInEntries]
  rw [h1, h3]
  refine List.Perm.trans (List.Perm.append_right _ ?_) (List.filter_append_perm _ kvs)
  rw [← h2]
  exact (foldr_insertIndexed_perm _).map Prod.snd

/-- A submission that passes the shape check and the opt-in validation runs
the delivery. -/
theorem handler_validated (w : World) (event : Event) (context : Context)
    (members rs : List (String × Json))
    (hm : event.httpMethod = "POST")
    (hp : JSON_parse event.body = some (.obj members))
    (hr : members.lookup "surveyResponses" = some (.obj rs))
    (hv : validateOptIn (some (.obj rs)) = .ok none) :
    handler w event context =
      ((deliver w (.obj members) (.obj rs) context).1,
        .jsonParse event.body :: (deliver w (.obj members) (.obj rs) context).2) := by
  have hg : getProp (some (.obj members)) "surveyResponses" = .ok (some (.obj rs)) := by
    simp [getProp, hr]
  rw [handler_good_shape w event context (.obj members) (.obj rs) hm hp hg
    (by simp [truthy, typeOf])]
  rw [hv]

/-- The calls to the endpoint made by steps 4 and 5. -/
theorem deliver_sentRecords (w : World) (data r : Json) (context : Context) :
    sentRecords (deliver w data r context).2 = (buildFormData w r).toList := by
  unfold deliver
  cases hb : buildFormData w r with
  | none => rfl
  | some fd =>
    cases hg : w.gas with
    | rejected => rfl
    | response st =>
      by_cases hok : (FetchOutcome.response st).ok = true <;> simp [hok, sentRecords]

/-! ## The record sent to the endpoint -/

theorem glue_isSome (sep : String) (a b : Option String) :
    (glue sep a b).isSome = (a.isSome && b.isSome) := by
  cases a <;> cases b <;> rfl

mutual
/-- Whether a conversion to string throws does not depend on how numbers are
written. -/
theorem strOf_isSome (f g : JNum → String) (nullText : String) :
    ∀ j : Json, (strOf f nullText j).isSome = (strOf g nullText j).isSome
  | .null => rfl
  | .bool _ => rfl
  | .num _ => rfl
  | .str _ => rfl
  | .arr xs => by
    simp only [strOf]
    exact joinEls_isSome f g "," xs
  | .obj kvs => by
    simp only [strOf]
theorem joinEls_isSome (f g : JNum → String) (sep : String) :
    ∀ l : List Json, (joinEls f sep l).isSome = (joinEls g sep l).isSome
  | [] => rfl
  | [x] => by
    simp only [joinEls]
    exact strOf_isSome f g "" x
  | x :: y :: rest => by
    simp only [joinEls, glue_isSome]
    rw [strOf_isSome f g "" x, joinEls_isSome f g sep (y :: rest)]
end

theorem flatten_isSome (f g : JNum → String) (v : Json) :
    (flatten f v).isSome = (flatten g v).isSome := by
  cases v with
  | arr xs => exact joinEls_isSome f g ", " xs
  | null => exact strOf_isSome f g "null" .null
  | bool b => exact strOf_isSome f g "null" (.bool b)
  | num n => exact strOf_isSome f g "null" (.num n)
  | str t => exact strOf_isSome f g "null" (.str t)
  | obj l => exact strOf_isSome f g "null" (.obj l)

theorem appendAll_isSome (f g : JNum → String) (entries : List (String × Json))
    (acc1 acc2 : List (String × String)) :
    (appendAll f entries acc1).isSome = (appendAll g entries acc2).isSome := by
  induction entries generalizing acc1 acc2 with
  | nil => rfl
  | cons e rest ih =>
    obtain ⟨id, value⟩ := e
    have hv := flatten_isSome f g value
    simp only [appendAll]
    cases h1 : flatten f value with
    | none =>
      cases h2 : flatten g value with
      | none => rfl
      | some t => rw [h1, h2] at hv; simp at hv
    | some t1 =>
      cases h2 : flatten g value with
      | none => rw [h1, h2] at hv; simp at hv
      | some t2 => exact ih _ _

/-- Whether the form data can be built depends on the answers only, not on
the clock or on the engine. -/
theorem buildFormData_isSome (w1 w2 : World) (r : Json) :
    (buildFormData w1 r).isSome = (buildFormData w2 r).isSome :=
  appendAll_isSome _ _ _ _ _

/-- The five ways through the handler, with the calls made on each: the
method is refused; an exception reaches the outer catch; the shape check
fails; the opt-in validation returns a 422; or the delivery runs. -/
theorem handler_cases (w : World) (event : Event) (context : Context) :
    handler w event context = (methodNotAllowed, []) ∨
    handler w event context =
      (processFailed,
        [.jsonParse event.body,
         .consoleError "Submission failed due to JSON parsing or unexpected error:"]) ∨
    handler w event context =
      (invalidFormat,
        [.jsonParse event.body,
         .consoleError "Validation Error: Missing or invalid surveyResponses object."]) ∨
    (∃ res msg, (res = requiredFields ∨ res = invalidEmail) ∧
      handler w event context = (res, [.jsonParse event.body, .consoleError msg])) ∨
    (∃ data r, event.httpMethod = "POST" ∧ JSON_parse event.body = some data ∧
      getProp (some data) "surveyResponses" = .ok (some r) ∧
      (!truthy (some data) || !truthy (some r) || typeOf (some r) != "object") = false ∧
      validateOptIn (some r) = .ok none ∧
      handler w event context =
        ((deliver w data r context).1,
          .jsonParse event.body :: (deliver w data r context).2)) := by
  by_cases hm : event.httpMethod = "POST"
  · cases hp : JSON_parse event.body with
    | none => exact Or.inr (Or.inl (handler_parse_failed w event context hm hp))
    | some data =>
      cases hg : getProp (some data) "surveyResponses" with
      | error e =>
        refine Or.inr (Or.inl ?_)
        simp [handler, tryBlock, hm, hp, hg]
      | ok responses =>
        by_cases hs : (!truthy (some data) || !truthy responses ||
            typeOf responses != "object") = true
        · exact Or.inr (Or.inr (Or.inl
            (handler_bad_shape w event context data responses hm hp hg hs)))
        · cases responses with
          | none => exact absurd (by simp [truthy]) hs
          | some r =>
            have hs2 := Bool.eq_false_iff.mpr hs
            have hh := handler_good_shape w event context data r hm hp hg hs2
            cases hv : validateOptIn (some r) with
            | error e =>
              rw [hv] at hh
              exact Or.inr (Or.inl hh)
            | ok o =>
              cases o with
              | none =>
                rw [hv] at hh
                exact Or.inr (Or.inr (Or.inr (Or.inr ⟨data, r, hm, rfl, hg, hs2, hv, hh⟩)))
              | some p =>
                obtain ⟨res, msg⟩ := p
                rw [hv] at hh
                exact Or.inr (Or.inr (Or.inr (Or.inl
                  ⟨res, msg, validateOptIn_result _ _ _ hv, hh⟩)))
  · exact Or.inl (handler_not_post w event context hm)

/-- The result is fixed by the request and by whether the external call
succeeds, except that a success carries the request id of the context. -/
theorem handler_result_form (event : Event) (ok : Bool) :
    ∃ fixed : Option HandlerResult, ∀ (w : World) (context : Context), w.gas.ok = ok →
      (handler w event context).1 = fixed.getD (success context) := by
  by_cases hm : event.httpMethod = "POST"
  · cases hp : JSON_parse event.body with
    | none =>
      exact ⟨some processFailed, fun w c _ => by rw [handler_parse_failed w event c hm hp]; rfl⟩
    | some data =>
      cases hg : getProp (some data) "surveyResponses" with
      | error e =>
        exact ⟨some processFailed, fun w c _ => by simp [handler, tryBlock, hm, hp, hg]⟩
      | ok responses =>
        by_cases hs : (!truthy (some data) || !truthy responses ||
            typeOf responses != "object") = true
        · exact ⟨some invalidFormat, fun w c _ => by
            rw [handler_bad_shape w event c data responses hm hp hg hs]; rfl⟩
        · cases responses with
          | none => exact absurd (by simp [truthy]) hs
          | some r =>
            have hs2 := Bool.eq_false_iff.mpr hs
            cases hv : validateOptIn (some r) with
            | error e =>
              exact ⟨some processFailed, fun w c _ => by
                rw [handler_good_shape w event c data r hm hp hg hs2, hv]; rfl⟩
            | ok o =>
              cases o with
              | some p =>
                exact ⟨some p.1, fun w c _ => by
                  rw [handler_good_shape w event c data r hm hp hg hs2, hv]; rfl⟩
              | none =>
                refine ⟨if (buildFormData ⟨"", .rejected, fun _ => ""⟩ r).isSome && ok then none
                  else some saveFailed, fun w c hok => ?_⟩
                rw [handler_good_shape w event c data r hm hp hg hs2, hv]
                simp only [deliver_result]
                rw [buildFormData_isSome w ⟨"", .rejected, fun _ => ""⟩ r, hok]
                split <;> rfl
  · exact ⟨some methodNotAllowed, fun w c _ => by rw [handler_not_post w event c hm]; rfl⟩

theorem fetchCount_after_parse (text : String) (calls : List Call) :
    fetchCount (.jsonParse text :: calls) = fetchCount calls := by
  simp [fetchCount, Call.isFetch]

theorem deliver_not_processFailed (w : World) (data r : Json) (context : Context) :
    (deliver w data r context).1 ≠ processFailed ∧
    (deliver w data r context).1.statusCode ≠ 405 ∧
    (deliver w data r context).1.statusCode ≠ 400 ∧
    (deliver w data r context).1.statusCode ≠ 422 := by
  rcases deliver_cases w data r context with h | h
  · rw [h]
    refine ⟨fun h2 => ?_, by simp [success], by simp [success], by simp [success]⟩
    exact absurd (congrArg HandlerResult.statusCode h2) (by simp [success, processFailed])
  · rw [h]
    exact ⟨by decide, by decide, by decide, by decide⟩

/-! ## Single, gated delivery -/

/-- C12 as stated fails: the body `{"surveyResponses": {"x": [{"toString":
1}]}}` is a POST body that parses, passes the shape check and passes the
opt-in validation, but `value.join(', ')` throws on the element whose
`toString` is not callable, so the endpoint is not called and the handler
answers 500 with `error: 'Failed to save to database.'`. -/
theorem validated_but_not_sent :
    JSON_parse "\x7b\"surveyResponses\": \x7b\"x\": [\x7b\"toString\": 1\x7d]\x7d\x7d" =
      some (.obj [("surveyResponses",
        .obj [("x", .arr [.obj [("toString", .num ⟨false, 1, 0⟩)]])])]) ∧
    (!truthy (some (.obj [("surveyResponses",
          .obj [("x", .arr [.obj [("toString", .num ⟨false, 1, 0⟩)]])])])) ||
        !truthy (some (.obj [("x", .arr [.obj [("toString", .num ⟨false, 1, 0⟩)]])])) ||
        typeOf (some (.obj [("x", .arr [.obj [("toString", .num ⟨false, 1, 0⟩)]])])) !=
          "object") = false ∧
    validateOptIn (some (.obj [("x", .arr [.obj [("toString", .num ⟨false, 1, 0⟩)]])])) =
      .ok none ∧
    fetchCount (handler ⟨"t", .response 200, fun _ => "1"⟩
      ⟨"POST", "\x7b\"surveyResponses\": \x7b\"x\": [\x7b\"toString\": 1\x7d]\x7d\x7d"⟩
      ⟨"id"⟩).2 = 0 ∧
    (handler ⟨"t", .response 200, fun _ => "1"⟩
      ⟨"POST", "\x7b\"surveyResponses\": \x7b\"x\": [\x7b\"toString\": 1\x7d]\x7d\x7d"⟩
      ⟨"id"⟩).1 = ⟨500, JSON_stringify [("error", "Failed to save to database.")]⟩ :=
  ⟨rfl, rfl, rfl, rfl, rfl⟩

/-- C12, amended: in every invocation the endpoint is called at most once,
whatever the outcome of the call; it is not called when the handler returns
405, 400, 422 or the generic 500; for a POST whose body parses and passes
the shape check and the opt-in validation it is called exactly once when the
form data is built without an exception and not at all otherwise; and the
form data of a payload of the data model is always built, so that such a
submission is sent exactly once. -/
theorem single_gated_delivery (w : World) (event : Event) (context : Context) :
    fetchCount (handler w event context).2 ≤ 1 ∧
    (((handler w event context).1.statusCode = 405 ∨
        (handler w event context).1.statusCode = 400 ∨
        (handler w event context).1.statusCode = 422 ∨
        (handler w event context).1 =
          ⟨500, JSON_stringify
            [("error", "Failed to process submission. Check request format.")]⟩) →
      fetchCount (handler w event context).2 = 0) ∧
    (∀ data r : Json, event.httpMethod = "POST" → JSON_parse event.body = some data →
      getProp (some data) "surveyResponses" = .ok (some r) →
      (!truthy (some data) || !truthy (some r) || typeOf (some r) != "object") = false →
      validateOptIn (some r) = .ok none →
      fetchCount (handler w event context).2 = if (buildFormData w r).isSome then 1 else 0) ∧
    (∀ members rs : List (String × Json), event.httpMethod = "POST" →
      JSON_parse event.body = some (.obj members) →
      members.lookup "surveyResponses" = some (.obj rs) → SurveyPayload rs →
      validateOptIn (some (.obj rs)) = .ok none →
      fetchCount (handler w event context).2 = 1) := by
  refine ⟨?_, ?_, ?_, ?_⟩
  · rcases handler_cases w event context with h | h | h | ⟨res, msg, _, h⟩ |
      ⟨data, r, _, _, _, _, _, h⟩
    · rw [h]; decide
    · rw [h]; simp [fetchCount, Call.isFetch]
    · rw [h]; simp [fetchCount, Call.isFetch]
    · rw [h]; simp [fetchCount, Call.isFetch]
    · rw [h, fetchCount_after_parse, deliver_fetchCount]
      split <;> simp
  · intro hres
    rcases handler_cases w event context with h | h | h | ⟨res, msg, _, h⟩ |
      ⟨data, r, _, _, _, _, _, h⟩
    · rw [h]; rfl
    · rw [h]; simp [fetchCount, Call.isFetch]
    · rw [h]; simp [fetchCount, Call.isFetch]
    · rw [h]; simp [fetchCount, Call.isFetch]
    · rw [h] at hres
      have hd := deliver_not_processFailed w data r context
      rcases hres with h1 | h1 | h1 | h1
      · exact absurd h1 hd.2.1
      · exact absurd h1 hd.2.2.1
      · exact absurd h1 hd.2.2.2
      · exact absurd h1 hd.1
  · intro data r hm hp hg hs hv
    rw [handler_good_shape w event context data r hm hp hg hs, hv]
    show fetchCount (.jsonParse event.body :: (deliver w data r context).2) = _
    rw [fetchCount_after_parse, deliver_fetchCount]
  · intro members rs hm hp hr hd hv
    rw [handler_validated w event context members rs hm hp hr hv, fetchCount_after_parse,
      deliver_fetchCount, buildFormData_payload w rs hd]
    rfl

/-- Scenario 4 as a delivery: a submission of the data model whose call to
the endpoint is answered 503 is sent once and not again. -/
theorem single_gated_delivery_witness :
    fetchCount (handler ⟨"t", .response 503, fun _ => "0"⟩
      ⟨"POST", "\x7b\"surveyResponses\": \x7b\"q1\": \"a\"\x7d\x7d"⟩ ⟨"id"⟩).2 = 1 :=
  (single_gated_delivery ⟨"t", .response 503, fun _ => "0"⟩
    ⟨"POST", "\x7b\"surveyResponses\": \x7b\"q1\": \"a\"\x7d\x7d"⟩ ⟨"id"⟩).2.2.2
    [("surveyResponses", .obj [("q1", .str "a")])] [("q1", .str "a")]
    rfl rfl rfl (by simp [SurveyPayload, isAnswer]) rfl

/-! ## Outcome of the delivery -/

/-- Three filled string fields and a well-formed e-mail pass step 3. -/
theorem validateOptIn_filled (rs : List (String × Json)) (name email phone : String)
    (hn : rs.lookup "name-q21" = some (.str name)) (hn2 : jsTrim name ≠ "")
    (he : rs.lookup "email-q21" = some (.str email)) (he2 : jsTrim email ≠ "")
    (hph : rs.lookup "phone-q21" = some (.str phone)) (hph2 : jsTrim phone ≠ "")
    (hf : EmailForm email) :
    validateOptIn (some (.obj rs)) = .ok none := by
  cases ho : hasOptedIn (rs.lookup "q21") with
  | false => exact validateOptIn_not_opted (.obj rs) _ rfl ho
  | true =>
    have hreq : requiredMissing (rs.lookup "name-q21") (rs.lookup "email-q21")
        (rs.lookup "phone-q21") = .ok false := by
      rw [hn, he, hph]
      simp [requiredMissing, emptyField_filled, hn2, he2, hph2]
    rw [validateOptIn_opted rs ho, hreq, he]
    simp [(emailTest_iff email).mpr hf]

/-- C13: for every submission of the data model that passes validation (not
opted in, or opted in with three string fields that are not empty after
trimming and a well-formed e-mail), the handler returns 500 with
`error: 'Failed to save to database.'` when the external call throws or
returns a status outside 200 to 299, and 200 with the success message and the
request id of the context when the call returns a status from 200 to 299. -/
theorem delivery_outcome (w : World) (event : Event) (context : Context)
    (members rs : List (String × Json))
    (hm : event.httpMethod = "POST")
    (hp : JSON_parse event.body = some (.obj members))
    (hr : members.lookup "surveyResponses" = some (.obj rs))
    (hd : SurveyPayload rs)
    (hv : hasOptedIn (rs.lookup "q21") = false ∨
      (hasOptedIn (rs.lookup "q21") = true ∧ ∃ name email phone : String,
        rs.lookup "name-q21" = some (.str name) ∧ jsTrim name ≠ "" ∧
        rs.lookup "email-q21" = some (.str email) ∧ jsTrim email ≠ "" ∧
        rs.lookup "phone-q21" = some (.str phone) ∧ jsTrim phone ≠ "" ∧
        EmailForm email)) :
    (w.gas = .rejected →
      (handler w event context).1 =
        ⟨500, JSON_stringify [("error", "Failed to save to database.")]⟩) ∧
    (∀ status, w.gas = .response status → ¬ (200 ≤ status ∧ status ≤ 299) →
      (handler w event context).1 =
        ⟨500, JSON_stringify [("error", "Failed to save to database.")]⟩) ∧
    (∀ status, w.gas = .response status → 200 ≤ status → status ≤ 299 →
      (handler w event context).1 =
        ⟨200, JSON_stringify [("message", "Survey submitted successfully!"),
          ("submissionId", context.awsRequestId)]⟩) := by
  have hpass : validateOptIn (some (.obj rs)) = .ok none := by
    rcases hv with h | ⟨_, name, email, phone, hn, hn2, he, he2, hph, hph2, hf⟩
    · exact validateOptIn_not_opted (.obj rs) _ rfl h
    · exact validateOptIn_filled rs name email phone hn hn2 he he2 hph hph2 hf
  have hres : (handler w event context).1 =
      if w.gas.ok then success context else saveFailed := by
    rw [handler_validated w event context members rs hm hp hr hpass]
    simp only [deliver_result, buildFormData_payload w rs hd, Option.isSome_some,
      Bool.true_and]
  refine ⟨fun hg => ?_, fun status hg hno => ?_, fun status hg h1 h2 => ?_⟩
  · rw [hres, hg]; rfl
  · have : (FetchOutcome.response status).ok = false := by
      simp only [FetchOutcome.ok, Bool.and_eq_false_iff, decide_eq_false_iff_not]
      by_cases h : 200 ≤ status
      · exact Or.inr (fun h2 => hno ⟨h, h2⟩)
      · exact Or.inl h
    rw [hres, hg, this]; rfl
  · have : (FetchOutcome.response status).ok = true := by
      simp [FetchOutcome.ok, h1, h2]
    rw [hres, hg, this]; rfl

/-- Scenario 4: the endpoint answers 503 and the handler returns 500 with
`error: 'Failed to save to database.'`. -/
theorem delivery_outcome_witness :
    (handler ⟨"t", .response 503, fun _ => "0"⟩
      ⟨"POST", "\x7b\"surveyResponses\": \x7b\"q21\": [\"No, just completing the survey\"]\x7d\x7d"⟩
      ⟨"id"⟩).1 = ⟨500, JSON_stringify [("error", "Failed to save to database.")]⟩ :=
  (delivery_outcome ⟨"t", .response 503, fun _ => "0"⟩
    ⟨"POST", "\x7b\"surveyResponses\": \x7b\"q21\": [\"No, just completing the survey\"]\x7d\x7d"⟩
    ⟨"id"⟩
    [("surveyResponses", .obj [("q21", .arr [.str optOut])])]
    [("q21", .arr [.str optOut])] rfl rfl rfl
    (by simp [SurveyPayload, isAnswer]) (Or.inl rfl)).2.1 503 rfl (by decide)

/-! ## Statelessness -/

/-- C14: two invocations with the same method, the same body and the same
outcome of the external call return the same status code, and the same body
unless both are the success response, which differs only in the request id
of the context; with the same request id the results are equal.  The clock
and the engine may differ between the two.  In a sequence of invocations the
result of each one is that of the handler run alone, and reordering the
invocations reorders the results in the same way. -/
theorem two_runs_agree (w1 w2 : World) (event : Event) (c1 c2 : Context)
    (hg : w1.gas = w2.gas) :
    (handler w1 event c1).1.statusCode = (handler w2 event c2).1.statusCode ∧
    ((handler w1 event c1).1.body = (handler w2 event c2).1.body ∨
      ((handler w1 event c1).1 =
          ⟨200, JSON_stringify [("message", "Survey submitted successfully!"),
            ("submissionId", c1.awsRequestId)]⟩ ∧
        (handler w2 event c2).1 =
          ⟨200, JSON_stringify [("message", "Survey submitted successfully!"),
            ("submissionId", c2.awsRequestId)]⟩)) ∧
    (c1.awsRequestId = c2.awsRequestId →
      (handler w1 event c1).1 = (handler w2 event c2).1) ∧
    (∀ before after : List (World × Event × Context),
      (serve (before ++ (w1, event, c1) :: after))[before.length]? =
        some (handler w1 event c1)) ∧
    (∀ l1 l2 : List (World × Event × Context), l1.Perm l2 → (serve l1).Perm (serve l2)) := by
  obtain ⟨fixed, hf⟩ := handler_result_form event w1.gas.ok
  have h1 := hf w1 c1 rfl
  have h2 := hf w2 c2 (by rw [hg])
  refine ⟨?_, ?_, ?_, ?_, ?_⟩
  · rw [h1, h2]
    cases fixed <;> rfl
  · rw [h1, h2]
    cases fixed with
    | none => exact Or.inr ⟨rfl, rfl⟩
    | some r => exact Or.inl rfl
  · intro hid
    rw [h1, h2]
    cases fixed with
    | none =>
      show success c1 = success c2
      simp only [success, hid]
    | some r => rfl
  · intro before after
    unfold serve
    rw [List.getElem?_map, List.getElem?_append_right (Nat.le_refl _)]
    simp
  · intro l1 l2 hperm
    exact hperm.map _

/-- The same submission handled at two instants under two request ids, the
endpoint answering 200 both times: both results are the 200. -/
theorem two_runs_agree_witness :
    (handler ⟨"2026-01-01T00:00:00.000Z", .response 200, fun _ => "0"⟩
      ⟨"POST", "\x7b\"surveyResponses\": \x7b\"q1\": \"a\"\x7d\x7d"⟩ ⟨"id-1"⟩).1.statusCode =
    (handler ⟨"2027-06-30T12:00:00.000Z", .response 200, fun _ => "1"⟩
      ⟨"POST", "\x7b\"surveyResponses\": \x7b\"q1\": \"a\"\x7d\x7d"⟩ ⟨"id-2"⟩).1.statusCode :=
  (two_runs_agree ⟨"2026-01-01T00:00:00.000Z", .response 200, fun _ => "0"⟩
    ⟨"2027-06-30T12:00:00.000Z", .response 200, fun _ => "1"⟩
    ⟨"POST", "\x7b\"surveyResponses\": \x7b\"q1\": \"a\"\x7d\x7d"⟩ ⟨"id-1"⟩ ⟨"id-2"⟩ rfl).1

/-! ## The e-mail pattern, characterised -/

theorem emailForm_iff_shape (s : String) : EmailForm s ↔ EmailShape s := by
  constructor
  · rintro ⟨L, X, Y, hs, hL, hX, hY, hLall, hXall, hYall⟩
    have cL : L.count '@' = 0 := List.count_eq_zero.mpr (fun h => (hLall _ h).2 rfl)
    have cX : X.count '@' = 0 := List.count_eq_zero.mpr (fun h => (hXall _ h).2 rfl)
    have cY : Y.count '@' = 0 := List.count_eq_zero.mpr (fun h => (hYall _ h).2 rfl)
    refine ⟨?_, ?_, L, X ++ '.' :: Y, hs, hL, X, Y, rfl, hX, hY⟩
    · intro c hc
      rw [hs] at hc
      simp only [List.mem_append, List.mem_cons] at hc
      rcases hc with h | h | h | h | h
      · exact (hLall c h).1
      · rw [h]; decide
      · exact (hXall c h).1
      · rw [h]; decide
      · exact (hYall c h).1
    · rw [hs]
      simp [List.count_append, List.count_cons, cL, cX, cY]
  · rintro ⟨hws, hcount, B, R, hs, hB, P, Q, hR, hP, hQ⟩
    subst hR
    rw [hs] at hcount
    simp only [List.count_append, List.count_cons, beq_self_eq_true, if_true] at hcount
    have cB : B.count '@' = 0 := by omega
    have cP : P.count '@' = 0 := by omega
    have cQ : Q.count '@' = 0 := by omega
    have mem : ∀ c, c ∈ B ∨ c ∈ P ∨ c ∈ Q → c ∈ s.data := by
      intro c hc
      rw [hs]
      simp only [List.mem_append, List.mem_cons]
      tauto
    refine ⟨B, P, Q, hs, hB, hP, hQ, ?_, ?_, ?_⟩
    · intro c hc
      exact ⟨hws c (mem c (Or.inl hc)), fun h => List.count_eq_zero.mp cB (h ▸ hc)⟩
    · intro c hc
      exact ⟨hws c (mem c (Or.inr (Or.inl hc))), fun h => List.count_eq_zero.mp cP (h ▸ hc)⟩
    · intro c hc
      exact ⟨hws c (mem c (Or.inr (Or.inr hc))), fun h => List.count_eq_zero.mp cQ (h ▸ hc)⟩

/-- C15: a string matches `/^[^\s@]+@[^\s@]+\.[^\s@]+$/` if and only if it
contains no whitespace character, contains exactly one `@`, has at least one
character before the `@`, and the part after the `@` contains a `.` that is
neither its first nor its last character.  So `a@b..c`, `a@.b.c` and `a@b.c.`
are accepted and `a@b.`, `a@.c`, `a@@b.c` and `a b@c.d` are rejected. -/
theorem email_pattern_characterised :
    (∀ s : String, emailTest s = true ↔ EmailShape s) ∧
    emailTest "a@b..c" = true ∧ emailTest "a@.b.c" = true ∧ emailTest "a@b.c." = true ∧
    emailTest "a@b." = false ∧ emailTest "a@.c" = false ∧ emailTest "a@@b.c" = false ∧
    emailTest "a b@c.d" = false :=
  ⟨fun s => (emailTest_iff s).trans (emailForm_iff_shape s),
    by decide, by decide, by decide, by decide, by decide, by decide, by decide⟩

/-! ## Trimming -/

theorem mem_dropWhile_of_false (p : Char → Bool) (c : Char) (l : List Char)
    (hc : c ∈ l) (hp : p c = false) : c ∈ l.dropWhile p := by
  induction l with
  | nil => exact absurd hc (List.not_mem_nil _)
  | cons x rest ih =>
    by_cases hx : p x = true
    · rw [List.dropWhile_cons_of_pos hx]
      rcases List.mem_cons.mp hc with h | h
      · rw [h, hx] at hp; exact absurd hp (by simp)
      · exact ih h
    · rw [List.dropWhile_cons_of_neg hx]
      exact hc

/-- A string with a character that is not whitespace is not empty after
trimming. -/
theorem jsTrim_ne_empty (s : String) (c : Char) (hc : c ∈ s.data)
    (hw : isWhiteSpace c = false) : jsTrim s ≠ "" := by
  intro h
  have hd : ((s.data.dropWhile isWhiteSpace).reverse.dropWhile isWhiteSpace).reverse = [] :=
    congrArg String.data h
  have h1 : c ∈ (s.data.dropWhile isWhiteSpace).reverse :=
    List.mem_reverse.mpr (mem_dropWhile_of_false _ c _ hc hw)
  have h2 := mem_dropWhile_of_false isWhiteSpace c _ h1 hw
  rw [List.reverse_eq_nil_iff] at hd
  rw [hd] at h2
  exact absurd h2 (List.not_mem_nil _)

/-- The record sent for a validated submission of the data model. -/
theorem handler_sent_payload (w : World) (event : Event) (context : Context)
    (members rs : List (String × Json))
    (hm : event.httpMethod = "POST")
    (hp : JSON_parse event.body = some (.obj members))
    (hr : members.lookup "surveyResponses" = some (.obj rs))
    (hd : SurveyPayload rs)
    (hv : validateOptIn (some (.obj rs)) = .ok none) :
    sentRecords (handler w event context).2 =
      [("timestamp", w.now) :: (forInEntries (.obj rs)).map (fun e => (e.1, answerText e.2))] := by
  rw [handler_validated w event context members rs hm hp hr hv]
  show sentRecords (deliver w (.obj members) (.obj rs) context).2 = _
  rw [deliver_sentRecords, buildFormData_payload w rs hd]
  rfl

/-- A string answer of the payload is in the record as it was received. -/
theorem string_answer_sent (rs : List (String × Json)) (k s : String)
    (h : (k, Json.str s) ∈ rs) :
    (k, s) ∈ (forInEntries (.obj rs)).map (fun e => (e.1, answerText e.2)) :=
  List.mem_map.mpr ⟨(k, .str s), (forInEntries_obj_perm rs).mem_iff.mpr h, rfl⟩

/-- C16: trimming only tests emptiness.  For an opted-in payload whose name
and phone are strings that are not empty after trimming: an e-mail that is a
well-formed address with whitespace before or after it passes the
required-fields test and is answered 422 with the invalid-email message;
with a well-formed e-mail the submission is accepted whatever whitespace the
name and the phone carry, and they are sent as received.  For every accepted
submission of the data model each string answer is sent exactly as received. -/
theorem trim_only_tests_emptiness (w : World) (event : Event) (context : Context)
    (members rs : List (String × Json))
    (hm : event.httpMethod = "POST")
    (hp : JSON_parse event.body = some (.obj members))
    (hr : members.lookup "surveyResponses" = some (.obj rs)) :
    (∀ (xs : List Json) (name email phone addr : String) (pre post : List Char),
      rs.lookup "q21" = some (.arr xs) → (∃ x ∈ xs, x ≠ Json.str optOut) →
      rs.lookup "name-q21" = some (.str name) → jsTrim name ≠ "" →
      rs.lookup "phone-q21" = some (.str phone) → jsTrim phone ≠ "" →
      rs.lookup "email-q21" = some (.str email) →
      EmailForm addr → email.data = pre ++ addr.data ++ post →
      (∀ c ∈ pre, isWhiteSpace c = true) → (∀ c ∈ post, isWhiteSpace c = true) →
      (pre ≠ [] ∨ post ≠ []) →
      jsTrim email ≠ "" ∧
      requiredMissing (rs.lookup "name-q21") (rs.lookup "email-q21")
        (rs.lookup "phone-q21") = .ok false ∧
      (handler w event context).1 =
        ⟨422, JSON_stringify [("error", "Le format de l'email est invalide.")]⟩) ∧
    (∀ (xs : List Json) (name email phone : String),
      rs.lookup "q21" = some (.arr xs) → (∃ x ∈ xs, x ≠ Json.str optOut) →
      rs.lookup "name-q21" = some (.str name) → jsTrim name ≠ "" →
      rs.lookup "phone-q21" = some (.str phone) → jsTrim phone ≠ "" →
      rs.lookup "email-q21" = some (.str email) → EmailForm email → SurveyPayload rs →
      (handler w event context).1.statusCode ≠ 422 ∧
      ∃ entries : List (String × String),
        sentRecords (handler w event context).2 = [("timestamp", w.now) :: entries] ∧
        ("name-q21", name) ∈ entries ∧ ("phone-q21", phone) ∈ entries ∧
        ("email-q21", email) ∈ entries) ∧
    (SurveyPayload rs → validateOptIn (some (.obj rs)) = .ok none →
      ∃ entries : List (String × String),
        sentRecords (handler w event context).2 = [("timestamp", w.now) :: entries] ∧
        ∀ k s : String, (k, Json.str s) ∈ rs → (k, s) ∈ entries) := by
  refine ⟨?_, ?_, ?_⟩
  · intro xs name email phone addr pre post hq hx hn hn2 hph hph2 he hf hdata hpre hpost hpad
    obtain ⟨L, X, Y, hs, _, _, _, _, _, _⟩ := id hf
    have hat : '@' ∈ email.data := by rw [hdata, hs]; simp
    have he2 : jsTrim email ≠ "" := jsTrim_ne_empty email '@' hat (by decide)
    have hbad : ¬ EmailForm email := by
      rintro ⟨L2, X2, Y2, hs2, _, _, _, hL2, hX2, hY2⟩
      have hall : ∀ c ∈ email.data, isWhiteSpace c = false := by
        intro c hc
        rw [hs2] at hc
        simp only [List.mem_append, List.mem_cons] at hc
        rcases hc with h | h | h | h | h
        · exact (hL2 c h).1
        · rw [h]; decide
        · exact (hX2 c h).1
        · rw [h]; decide
        · exact (hY2 c h).1
      have hex : ∃ c ∈ email.data, isWhiteSpace c = true := by
        rcases hpad with h | h
        · obtain ⟨c, rest, hc⟩ := List.exists_cons_of_ne_nil h
          exact ⟨c, by rw [hdata, hc]; simp, hpre c (by rw [hc]; simp)⟩
        · obtain ⟨c, rest, hc⟩ := List.exists_cons_of_ne_nil h
          exact ⟨c, by rw [hdata, hc]; simp, hpost c (by rw [hc]; simp)⟩
      obtain ⟨c, hc, hw⟩ := hex
      rw [hall c hc] at hw
      exact absurd hw (by simp)
    refine ⟨he2, ?_, ?_⟩
    · rw [hn, he, hph]
      simp [requiredMissing, emptyField_filled, hn2, he2, hph2]
    · rw [handler_opted_filled w event context members rs xs name email phone
        hm hp hr hq hx hn hn2 he he2 hph hph2]
      have ht : ¬ emailTest email = true := fun h => hbad ((emailTest_iff email).mp h)
      rw [if_neg ht]
      rfl
  · intro xs name email phone hq hx hn hn2 hph hph2 he hf hd
    obtain ⟨L, X, Y, hs, _, _, _, _, _, _⟩ := id hf
    have hat : '@' ∈ email.data := by rw [hs]; simp
    have he2 : jsTrim email ≠ "" := jsTrim_ne_empty email '@' hat (by decide)
    have hv := validateOptIn_filled rs name email phone hn hn2 he he2 hph hph2 hf
    refine ⟨?_, _, handler_sent_payload w event context members rs hm hp hr hd hv,
      string_answer_sent rs _ _ (mem_of_lookup _ _ _ hn),
      string_answer_sent rs _ _ (mem_of_lookup _ _ _ hph),
      string_answer_sent rs _ _ (mem_of_lookup _ _ _ he)⟩
    rw [handler_validated w event context members rs hm hp hr hv]
    exact (deliver_not_processFailed w _ _ context).2.2.2
  · intro hd hv
    exact ⟨_, handler_sent_payload w event context members rs hm hp hr hd hv,
      fun k s h => string_answer_sent rs k s h⟩

/-- The e-mail ` a@b.com`, with a leading space, next to the name ` A ` and
the phone `555 `: the required-fields test passes and the answer is 422 with
the invalid-email message. -/
theorem trim_only_tests_emptiness_witness :
    (handler ⟨"t", .response 200, fun _ => "0"⟩
      ⟨"POST",
        "\x7b\"surveyResponses\": \x7b\"q21\": [\"Yes\"], \"name-q21\": \" A \", \"email-q21\": \" a@b.com\", \"phone-q21\": \"555 \"\x7d\x7d"⟩
      ⟨"id"⟩).1 =
      ⟨422, JSON_stringify [("error", "Le format de l'email est invalide.")]⟩ :=
  ((trim_only_tests_emptiness ⟨"t", .response 200, fun _ => "0"⟩
    ⟨"POST",
      "\x7b\"surveyResponses\": \x7b\"q21\": [\"Yes\"], \"name-q21\": \" A \", \"email-q21\": \" a@b.com\", \"phone-q21\": \"555 \"\x7d\x7d"⟩
    ⟨"id"⟩
    [("surveyResponses", .obj [("q21", .arr [.str "Yes"]), ("name-q21", .str " A "),
      ("email-q21", .str " a@b.com"), ("phone-q21", .str "555 ")])]
    [("q21", .arr [.str "Yes"]), ("name-q21", .str " A "),
      ("email-q21", .str " a@b.com"), ("phone-q21", .str "555 ")]
    rfl rfl rfl).1
    [.str "Yes"] " A " " a@b.com" "555 " "a@b.com" [' '] []
    rfl ⟨.str "Yes", by simp, by simp [optOut]⟩
    rfl (by decide) rfl (by decide) rfl
    ((emailTest_iff "a@b.com").mp (by decide)) rfl
    (by decide) (by simp) (Or.inl (by simp))).2.2

/-! ## Flattening is not injective -/

/-- C17: distinct answers flatten to the same string: the sequence
`['A','B']`, the one-element sequence `['A, B']` and the string `A, B` all
give `A, B`, and for every string `s` the sequence `[s]` and the string `s`
give the same value; so the flattening is not injective, and two different
payloads can produce the same form data. -/
theorem flatten_not_injective (fmt : JNum → String) :
    flatten fmt (.arr [.str "A", .str "B"]) = some "A, B" ∧
    flatten fmt (.arr [.str "A, B"]) = some "A, B" ∧
    flatten fmt (.str "A, B") = some "A, B" ∧
    Json.arr [.str "A", .str "B"] ≠ Json.arr [.str "A, B"] ∧
    Json.arr [.str "A", .str "B"] ≠ Json.str "A, B" ∧
    Json.arr [.str "A, B"] ≠ Json.str "A, B" ∧
    (∀ s : String, flatten fmt (.arr [.str s]) = flatten fmt (.str s) ∧
      Json.arr [.str s] ≠ Json.str s) ∧
    ¬ Function.Injective (flatten fmt) ∧
    (∀ w : World, buildFormData w (.obj [("q", .arr [.str "A", .str "B"])]) =
      buildFormData w (.obj [("q", .str "A, B")])) := by
  refine ⟨rfl, rfl, rfl, ?_, ?_, ?_, fun s => ⟨rfl, ?_⟩, ?_, fun w => rfl⟩
  · intro h
    simp at h
  · intro h
    cases h
  · intro h
    cases h
  · intro h
    cases h
  · intro hinj
    have h : Json.arr [.str "A, B"] = Json.str "A, B" := hinj rfl
    cases h

end SubmitSurvey
